import Mathlib

/-!
# Snort 3 flow record and AppId statistics: a verification development

A shallow embedding of the inline members of `class Flow` (`src/flow/flow.h`):
the session-flag word, the five-state verdict gate and the five inspector
slots with their manual reference counting; and of the statistics buckets of
`src/network_inspectors/appid/appid_stats.cc`.

Conventions of the embedding
* `uint32_t` values are naturals below `2 ^ 32`; every store into a 32-bit
  field is reduced with `u32`.
* An `Inspector*` is `Option Nat`: `none` is `nullptr`, `some i` is the address
  of inspector object `i`.
* Calling a member through a null pointer is undefined behaviour: the methods
  that dereference a slot yield `Option`, and `none` stands for a call that
  went through `nullptr`; no successor state is defined for it.
* The calls a flow makes on inspector objects are recorded, in order, in a
  ghost trace next to the per-object counters.
-/

namespace Snort

/-! ## Session flag bits (`flow.h` lines 37-70) -/

def SSNFLAG_SEEN_CLIENT : Nat := 0x00000001
def SSNFLAG_SEEN_SENDER : Nat := 0x00000001
def SSNFLAG_SEEN_SERVER : Nat := 0x00000002
def SSNFLAG_SEEN_RESPONDER : Nat := 0x00000002
def SSNFLAG_ESTABLISHED : Nat := 0x00000004
def SSNFLAG_MIDSTREAM : Nat := 0x00000008
def SSNFLAG_ECN_CLIENT_QUERY : Nat := 0x00000010
def SSNFLAG_ECN_SERVER_REPLY : Nat := 0x00000020
def SSNFLAG_CLIENT_FIN : Nat := 0x00000040
def SSNFLAG_SERVER_FIN : Nat := 0x00000080
def SSNFLAG_COUNTED_INITIALIZE : Nat := 0x00000100
def SSNFLAG_COUNTED_ESTABLISH : Nat := 0x00000200
def SSNFLAG_COUNTED_CLOSING : Nat := 0x00000400
def SSNFLAG_TIMEDOUT : Nat := 0x00001000
def SSNFLAG_PRUNED : Nat := 0x00002000
def SSNFLAG_RESET : Nat := 0x00004000
def SSNFLAG_DROP_CLIENT : Nat := 0x00010000
def SSNFLAG_DROP_SERVER : Nat := 0x00020000
def SSNFLAG_FORCE_BLOCK : Nat := 0x00040000
def SSNFLAG_STREAM_ORDER_BAD : Nat := 0x00100000
def SSNFLAG_CLIENT_SWAP : Nat := 0x00200000
def SSNFLAG_CLIENT_SWAPPED : Nat := 0x00400000
def SSNFLAG_PROXIED : Nat := 0x01000000
def SSNFLAG_NONE : Nat := 0x00000000

def SSNFLAG_SEEN_BOTH : Nat := SSNFLAG_SEEN_SERVER ||| SSNFLAG_SEEN_CLIENT
def SSNFLAG_BLOCK : Nat := SSNFLAG_DROP_CLIENT ||| SSNFLAG_DROP_SERVER

/-! ## Machine words -/

/-- Reduction of a natural to the range of `uint32_t`. -/
def u32 (n : Nat) : Nat := n % 2 ^ 32

/-- Bitwise complement of a `uint32_t` (the C operator `~`). -/
def not32 (n : Nat) : Nat := (2 ^ 32 - 1) - u32 n

/-! ## Data model -/

/-- Mirror of `struct LwState`. -/
structure LwState where
  session_flags : Nat
  ipprotocol : Int
  application_protocol : Int
  direction : Int
  ignore_direction : Int
  deriving DecidableEq

/-- Mirror of `enum class Flow::FlowState : uint8_t`. -/
inductive FlowState where
  | SETUP
  | INSPECT
  | BLOCK
  | RESET
  | ALLOW
  deriving DecidableEq

/-- Underlying `uint8_t` value of an enumerator (`SETUP = 0`, then counting up). -/
def FlowState.toUInt8 : FlowState → Nat
  | .SETUP => 0
  | .INSPECT => 1
  | .BLOCK => 2
  | .RESET => 3
  | .ALLOW => 4

/-- The members of `class Flow` that its inline methods read or write. -/
structure Flow where
  ssn_client : Option Nat
  ssn_server : Option Nat
  clouseau : Option Nat
  gadget : Option Nat
  data : Option Nat
  ssn_state : LwState
  previous_ssn_state : LwState
  flow_state : FlowState
  disable_inspect : Bool
  deriving DecidableEq

/-- One call made on an inspector object. -/
inductive RefCall where
  | add_ref (i : Nat)
  | rem_ref (i : Nat)
  deriving DecidableEq

/-- A flow together with the inspector objects it can point at: the counter of
every inspector object and the ghost trace of the calls made on them. -/
structure Sys where
  flow : Flow
  ref_count : Nat → Int
  calls : List RefCall

/-- Modelled from the spec: `Inspector::add_ref` (declared in
`framework/inspector.h`, which is not among the sources). Acquiring a shared
reference adds one to the object's counter. -/
def Inspector.add_ref (i : Nat) (w : Sys) : Sys :=
  { w with
    ref_count := fun j => if j = i then w.ref_count j + 1 else w.ref_count j
    calls := w.calls ++ [RefCall.add_ref i] }

/-- Modelled from the spec: `Inspector::rem_ref` (declared in
`framework/inspector.h`, which is not among the sources). Releasing a shared
reference subtracts one from the object's counter. -/
def Inspector.rem_ref (i : Nat) (w : Sys) : Sys :=
  { w with
    ref_count := fun j => if j = i then w.ref_count j - 1 else w.ref_count j
    calls := w.calls ++ [RefCall.rem_ref i] }

/-! ## Session flags (`flow.h` lines 180-229) -/

namespace Flow

/-- Source: `return ssn_state.session_flags = flags;` -/
def update_session_flags (flags : Nat) (f : Flow) : Nat × Flow :=
  let v := u32 flags
  (v, { f with ssn_state := { f.ssn_state with session_flags := v } })

/-- Source: `return ssn_state.session_flags |= flags;` -/
def set_session_flags (flags : Nat) (f : Flow) : Nat × Flow :=
  let v := u32 (f.ssn_state.session_flags ||| u32 flags)
  (v, { f with ssn_state := { f.ssn_state with session_flags := v } })

/-- Source: `return ssn_state.session_flags &= ~flags;` -/
def clear_session_flags (flags : Nat) (f : Flow) : Nat × Flow :=
  let v := u32 (f.ssn_state.session_flags &&& not32 flags)
  (v, { f with ssn_state := { f.ssn_state with session_flags := v } })

/-- Source: `return ssn_state.session_flags;` -/
def get_session_flags (f : Flow) : Nat :=
  f.ssn_state.session_flags

/-- Source: `return ssn_state.ignore_direction;` -/
def get_ignore_direction (f : Flow) : Int :=
  f.ssn_state.ignore_direction

/-- Source: write `ignore_direction` when it differs from the stored value,
then return the stored value. -/
def set_ignore_direction (ignore_direction : Int) (f : Flow) : Int × Flow :=
  let f1 : Flow :=
    if f.ssn_state.ignore_direction ≠ ignore_direction then
      { f with ssn_state := { f.ssn_state with ignore_direction := ignore_direction } }
    else f
  (f1.ssn_state.ignore_direction, f1)

/-- Source: `(ssn_state.session_flags & SSNFLAG_SEEN_BOTH) == SSNFLAG_SEEN_BOTH` -/
def two_way_traffic (f : Flow) : Bool :=
  decide ((f.ssn_state.session_flags &&& SSNFLAG_SEEN_BOTH) = SSNFLAG_SEEN_BOTH)

/-- Source: `ssn_state.session_flags |= SSNFLAG_PROXIED;` -/
def set_proxied (f : Flow) : Flow :=
  { f with ssn_state :=
      { f.ssn_state with session_flags := u32 (f.ssn_state.session_flags ||| SSNFLAG_PROXIED) } }

/-- Source: `(ssn_state.session_flags & SSNFLAG_PROXIED) != 0` -/
def is_proxied (f : Flow) : Bool :=
  decide ((f.ssn_state.session_flags &&& SSNFLAG_PROXIED) ≠ 0)

/-- Source: `ssn_state.session_flags |= SSNFLAG_BLOCK;` -/
def block (f : Flow) : Flow :=
  { f with ssn_state :=
      { f.ssn_state with session_flags := u32 (f.ssn_state.session_flags ||| SSNFLAG_BLOCK) } }

/-- Source: `(ssn_state.session_flags & SSNFLAG_BLOCK) != 0` -/
def was_blocked (f : Flow) : Bool :=
  decide ((f.ssn_state.session_flags &&& SSNFLAG_BLOCK) ≠ 0)

/-! ## Verdict gate (`flow.h` lines 231-235) -/

/-- Source: `flow_state <= FlowState::INSPECT` -/
def full_inspection (f : Flow) : Bool :=
  decide (f.flow_state.toUInt8 ≤ FlowState.INSPECT.toUInt8)

/-- Source: `flow_state = fs;` -/
def set_state (fs : FlowState) (f : Flow) : Flow :=
  { f with flow_state := fs }

/-- Source: `disable_inspect = true;` -/
def disable_inspection (f : Flow) : Flow :=
  { f with disable_inspect := true }

/-- Source: `return disable_inspect;` -/
def is_inspection_disabled (f : Flow) : Bool :=
  f.disable_inspect

/-! ## Inspector slots (`flow.h` lines 237-283)

Each setter stores the pointer and then calls `add_ref` through the slot; each
clearer calls `rem_ref` through the slot and then stores `nullptr`. -/

/-- Source: `ssn_client = ins; ssn_client->add_ref();` -/
def set_client (ins : Option Nat) (w : Sys) : Option Sys :=
  let w1 : Sys := { w with flow := { w.flow with ssn_client := ins } }
  match w1.flow.ssn_client with
  | none => none
  | some i => some (Inspector.add_ref i w1)

/-- Source: `ssn_server = ins; ssn_server->add_ref();` -/
def set_server (ins : Option Nat) (w : Sys) : Option Sys :=
  let w1 : Sys := { w with flow := { w.flow with ssn_server := ins } }
  match w1.flow.ssn_server with
  | none => none
  | some i => some (Inspector.add_ref i w1)

/-- Source: `clouseau = ins; clouseau->add_ref();` -/
def set_clouseau (ins : Option Nat) (w : Sys) : Option Sys :=
  let w1 : Sys := { w with flow := { w.flow with clouseau := ins } }
  match w1.flow.clouseau with
  | none => none
  | some i => some (Inspector.add_ref i w1)

/-- Source: `clouseau->rem_ref(); clouseau = nullptr;` -/
def clear_clouseau (w : Sys) : Option Sys :=
  match w.flow.clouseau with
  | none => none
  | some i =>
    let w1 := Inspector.rem_ref i w
    some { w1 with flow := { w1.flow with clouseau := none } }

/-- Source: `gadget = ins; gadget->add_ref();` -/
def set_gadget (ins : Option Nat) (w : Sys) : Option Sys :=
  let w1 : Sys := { w with flow := { w.flow with gadget := ins } }
  match w1.flow.gadget with
  | none => none
  | some i => some (Inspector.add_ref i w1)

/-- Source: `gadget->rem_ref(); gadget = nullptr;` -/
def clear_gadget (w : Sys) : Option Sys :=
  match w.flow.gadget with
  | none => none
  | some i =>
    let w1 := Inspector.rem_ref i w
    some { w1 with flow := { w1.flow with gadget := none } }

/-- Source: `data = pd; data->add_ref();` -/
def set_data (pd : Option Nat) (w : Sys) : Option Sys :=
  let w1 : Sys := { w with flow := { w.flow with data := pd } }
  match w1.flow.data with
  | none => none
  | some i => some (Inspector.add_ref i w1)

/-- Source: `data->rem_ref(); data = nullptr;` -/
def clear_data (w : Sys) : Option Sys :=
  match w.flow.data with
  | none => none
  | some i =>
    let w1 := Inspector.rem_ref i w
    some { w1 with flow := { w1.flow with data := none } }

end Flow

/-! ## Concrete records used by the closed statements -/

/-- An `LwState` with every member zero. -/
def LwState.zeroed : LwState :=
  { session_flags := 0, ipprotocol := 0, application_protocol := 0,
    direction := 0, ignore_direction := 0 }

/-- A flow whose modelled members are all zero: no inspector bound, no session
flag set, state `SETUP`. -/
def Flow.zeroed : Flow :=
  { ssn_client := none, ssn_server := none, clouseau := none, gadget := none,
    data := none, ssn_state := LwState.zeroed, previous_ssn_state := LwState.zeroed,
    flow_state := FlowState.SETUP, disable_inspect := false }

/-- The zeroed flow next to inspector objects whose counters are all zero and
on which no call has been made yet. -/
def Sys.zeroed : Sys :=
  { flow := Flow.zeroed, ref_count := fun _ => 0, calls := [] }

/-! ## Sequences of calls on one flow -/

/-- The calls that change the verdict state or the session flags. -/
inductive FlowOp where
  | set_state (fs : FlowState)
  | block
  | update_session_flags (flags : Nat)
  | set_session_flags (flags : Nat)
  | clear_session_flags (flags : Nat)
  | set_proxied
  deriving DecidableEq

/-- Effect of one such call on the flow (return values are dropped). -/
def FlowOp.apply : FlowOp → Flow → Flow
  | .set_state fs, f => f.set_state fs
  | .block, f => f.block
  | .update_session_flags flags, f => (f.update_session_flags flags).2
  | .set_session_flags flags, f => (f.set_session_flags flags).2
  | .clear_session_flags flags, f => (f.clear_session_flags flags).2
  | .set_proxied, f => f.set_proxied

/-- Run the calls from left to right. -/
def Flow.run : List FlowOp → Flow → Flow
  | [], f => f
  | op :: ops, f => Flow.run ops (op.apply f)

/-- Whether a call is `set_state` with an argument in {SETUP, INSPECT}. -/
def FlowOp.reopens : FlowOp → Bool
  | .set_state .SETUP => true
  | .set_state .INSPECT => true
  | _ => false

/-- The calls that bind or unbind the three clearable inspector slots. -/
inductive BindOp where
  | set_clouseau (ins : Option Nat)
  | set_gadget (ins : Option Nat)
  | set_data (pd : Option Nat)
  | clear_clouseau
  | clear_gadget
  | clear_data
  deriving DecidableEq

/-- Effect of one binding call; `none` when the call goes through `nullptr`. -/
def BindOp.apply : BindOp → Sys → Option Sys
  | .set_clouseau ins, w => Flow.set_clouseau ins w
  | .set_gadget ins, w => Flow.set_gadget ins w
  | .set_data pd, w => Flow.set_data pd w
  | .clear_clouseau, w => Flow.clear_clouseau w
  | .clear_gadget, w => Flow.clear_gadget w
  | .clear_data, w => Flow.clear_data w

/-- Run the binding calls from left to right, stopping at the first call that
goes through `nullptr`. -/
def Sys.run : List BindOp → Sys → Option Sys
  | [], w => some w
  | op :: ops, w =>
    match op.apply w with
    | none => none
    | some w1 => Sys.run ops w1

/-- A `clear_X` call is made on a bound slot (setters always pass). -/
def BindOp.clearsBound : BindOp → Flow → Bool
  | .clear_clouseau, f => f.clouseau.isSome
  | .clear_gadget, f => f.gadget.isSome
  | .clear_data, f => f.data.isSome
  | _, _ => true

/-- A `set_X` call is made on an empty slot (clearers always pass). -/
def BindOp.setsEmpty : BindOp → Flow → Bool
  | .set_clouseau _, f => f.clouseau.isNone
  | .set_gadget _, f => f.gadget.isNone
  | .set_data _, f => f.data.isNone
  | _, _ => true

/-- A `set_X` call passes an inspector, not `nullptr` (clearers always pass). -/
def BindOp.setsInspector : BindOp → Flow → Bool
  | .set_clouseau ins, _ => ins.isSome
  | .set_gadget ins, _ => ins.isSome
  | .set_data pd, _ => pd.isSome
  | _, _ => true

/-- Every call of the sequence passes the check `ok` on the flow it is made on. -/
def Sys.respects (ok : BindOp → Flow → Bool) : List BindOp → Sys → Bool
  | [], _ => true
  | op :: ops, w =>
    ok op w.flow &&
      match op.apply w with
      | none => true
      | some w1 => Sys.respects ok ops w1

/-- Number of `add_ref` calls made on inspector `i`. -/
def addRefCount (i : Nat) (calls : List RefCall) : Nat :=
  calls.count (RefCall.add_ref i)

/-- Number of `rem_ref` calls made on inspector `i`. -/
def remRefCount (i : Nat) (calls : List RefCall) : Nat :=
  calls.count (RefCall.rem_ref i)

/-- Number of slots among clouseau, gadget and data that point at inspector `i`. -/
def heldBy (i : Nat) (f : Flow) : Nat :=
  (if f.clouseau = some i then 1 else 0) + (if f.gadget = some i then 1 else 0)
    + (if f.data = some i then 1 else 0)

/-! ## Reference points for the flag and direction accessors -/

/-- The unconditional assignment `ssn_state.ignore_direction = d` followed by
returning the stored value: the behaviour `set_ignore_direction` is compared
with. -/
def Flow.assign_ignore_direction (d : Int) (f : Flow) : Int × Flow :=
  (d, { f with ssn_state := { f.ssn_state with ignore_direction := d } })

/-- The 21 distinct named session flags of `flow.h` lines 37-66, aliases and
`SSNFLAG_NONE` left out. -/
def namedSessionFlags : List Nat :=
  [SSNFLAG_SEEN_CLIENT, SSNFLAG_SEEN_SERVER, SSNFLAG_ESTABLISHED, SSNFLAG_MIDSTREAM,
    SSNFLAG_ECN_CLIENT_QUERY, SSNFLAG_ECN_SERVER_REPLY, SSNFLAG_CLIENT_FIN, SSNFLAG_SERVER_FIN,
    SSNFLAG_COUNTED_INITIALIZE, SSNFLAG_COUNTED_ESTABLISH, SSNFLAG_COUNTED_CLOSING,
    SSNFLAG_TIMEDOUT, SSNFLAG_PRUNED, SSNFLAG_RESET, SSNFLAG_DROP_CLIENT, SSNFLAG_DROP_SERVER,
    SSNFLAG_FORCE_BLOCK, SSNFLAG_STREAM_ORDER_BAD, SSNFLAG_CLIENT_SWAP, SSNFLAG_CLIENT_SWAPPED,
    SSNFLAG_PROXIED]

/-! ## AppId statistics (`appid_stats.cc`)

Further conventions
* `time_t` values are integers; `%` on them is the truncating remainder of C,
  and a zero divisor is undefined behaviour (`none`).
* An `SF_LIST*` is `Option (List _)`: `none` is `nullptr`, the list holds the
  nodes from head to tail, and a `StatsBucket*` into it is a position.
* An `FwAvlTree` is the list of its nodes, key with record, in ascending key
  order, which is the order `fwAvlFirst` / `fwAvlNext` visit them in.
* A string is the list of its characters before the terminating NUL.
* Writing the log file is left out; `dump_statistics` yields, for each bucket,
  the size of the buffer it allocates and the byte ranges it writes into it.
  A write that leaves the buffer is undefined behaviour: a call that runs such
  a dump has no successor state (`none`).
-/

/-- Reduction of a natural to the range of a 64-bit `size_t`. -/
def u64 (n : Nat) : Nat := n % 2 ^ 64

/-- Conversion of a `time_t` to `uint32_t`. -/
def time_to_u32 (t : Int) : Nat := (t % 2 ^ 32).toNat

/-- Conversion of a `uint32_t` to the 32-bit signed `AppId`. -/
def u32_to_AppId (n : Nat) : Int :=
  if u32 n < 2 ^ 31 then (u32 n : Int) else (u32 n : Int) - 2 ^ 32

/-- Mirror of `struct AppIdStatRecord`. -/
structure AppIdStatRecord where
  app_id : Nat
  initiatorBytes : Nat
  responderBytes : Nat
  deriving DecidableEq

/-- A record as `snort_calloc` returns it. -/
def AppIdStatRecord.zeroed : AppIdStatRecord :=
  { app_id := 0, initiatorBytes := 0, responderBytes := 0 }

/-- The nodes of an `FwAvlTree` in key order. -/
abbrev FwAvlTree := List (Nat × AppIdStatRecord)

/-- Mirror of `struct StatsBucket`, `totalStats` flattened. -/
structure StatsBucket where
  startTime : Nat
  appsTree : FwAvlTree
  txByteCnt : Nat
  rxByteCnt : Nat
  appRecordCnt : Nat
  deriving DecidableEq

/-- Modelled from the spec: `fwAvlInit` (`appid_utils/fw_avltree.h` is not
among the sources). A new tree has no node. -/
def fwAvlInit : FwAvlTree := []

/-- Modelled from the spec: `fwAvlLookup` (`appid_utils/fw_avltree.h` is not
among the sources). The record of the node with this key, or null. -/
def fwAvlLookup (key : Nat) : FwAvlTree → Option AppIdStatRecord
  | [] => none
  | (k, r) :: rest => if k = key then some r else fwAvlLookup key rest

/-- Place a new node at its position in key order. -/
def fwAvlPlace (key : Nat) (data : AppIdStatRecord) : FwAvlTree → FwAvlTree
  | [] => [(key, data)]
  | (k, r) :: rest =>
    if key < k then (key, data) :: (k, r) :: rest else (k, r) :: fwAvlPlace key data rest

/-- Modelled from the spec: `fwAvlInsert` (`appid_utils/fw_avltree.h` is not
among the sources). Returns 0 and adds a node when the key is absent and the
node can be allocated (`mem`); otherwise returns non-zero and leaves the tree
as it was. -/
def fwAvlInsert (key : Nat) (data : AppIdStatRecord) (tree : FwAvlTree) (mem : Bool) :
    Int × FwAvlTree :=
  if (fwAvlLookup key tree).isSome then (1, tree)
  else if mem then (0, fwAvlPlace key data tree)
  else (-1, tree)

/-- A write through the record pointer of the node with this key. -/
def storeRecord (key : Nat) (r : AppIdStatRecord) : FwAvlTree → FwAvlTree
  | [] => []
  | (k, r0) :: rest =>
    if k = key then (k, r) :: rest else (k, r0) :: storeRecord key r rest

/-- Modelled from the spec: `sflist_new` (`utils/sflsq.h` is not among the
sources). A new list is empty. -/
def sflist_new : Option (List StatsBucket) := some []

/-- Modelled from the spec: the enumerator `APP_ID_NONE` (`application_ids.h`
is not among the sources), the null application id, zero. -/
def APP_ID_NONE : Nat := 0

/-- What `update_appid_statistics` reads from an `AppIdSession`: the three
`stats` members and the values of the locals `web_app_id`, `service_app_id`
and `client_app_id` that the `pick_*_app_id()` calls initialise. -/
structure AppIdSession where
  firstPktsecond : Int
  initiatorBytes : Nat
  responderBytes : Nat
  web_app_id : Nat
  service_app_id : Nat
  client_app_id : Nat

/-- The file-scope variables of `appid_stats.cc` that the statistics use. -/
structure AppIdStats where
  enableAppStats : Bool
  bucketStart : Int
  bucketInterval : Int
  bucketEnd : Int
  currBuckets : Option (List StatsBucket)
  logBuckets : Option (List StatsBucket)
  deriving DecidableEq

/-- What `dump_statistics` takes from headers that are not among the sources:
the macro `MAX_EVENT_APPNAME_LEN`, two enumerators, and
`AppInfoManager::get_app_info_entry`, here the `app_name` of the entry found
for an id (`none` when there is no entry). -/
structure AppInfoEnv where
  MAX_EVENT_APPNAME_LEN : Nat
  APP_ID_UNKNOWN : Int
  APP_ID_UNKNOWN_UI : Int
  get_app_info_entry : Int → Option (List Char)

/-- Source: `now - (now % bucketInterval)`, with `now` the value of
`time(nullptr)`. -/
def get_time (clock : Int) (st : AppIdStats) : Option Int :=
  if st.bucketInterval = 0 then none
  else some (clock - clock.tmod st.bucketInterval)

/-- Source: `bucketStart = startTime; bucketEnd = bucketStart + bucketInterval;` -/
def start_stats_period (startTime : Int) (st : AppIdStats) : AppIdStats :=
  { st with bucketStart := startTime, bucketEnd := startTime + st.bucketInterval }

/-- Source: swap `logBuckets` and `currBuckets`. -/
def end_stats_period (st : AppIdStats) : AppIdStats :=
  { st with logBuckets := st.currBuckets, currBuckets := st.logBuckets }

/-- The bucket that `snort_calloc`, `bucket->startTime = startTime` and
`bucket->appsTree = fwAvlInit()` produce. -/
def new_stats_bucket (startTime : Int) : StatsBucket :=
  { startTime := time_to_u32 startTime, appsTree := fwAvlInit, txByteCnt := 0,
    rxByteCnt := 0, appRecordCnt := 0 }

/-- The `for` loop of `get_stats_bucket` with the tail insertion after it:
stop at the first bucket whose start time equals `startTime`, or insert a new
bucket before the first one whose start time is larger, or add it at the
tail. Yields the position of the returned bucket and the list. -/
def get_stats_bucket_scan (startTime : Int) : List StatsBucket → Nat × List StatsBucket
  | [] => (0, [new_stats_bucket startTime])
  | lBucket :: rest =>
    if startTime = (lBucket.startTime : Int) then (0, lBucket :: rest)
    else if startTime < (lBucket.startTime : Int) then
      (0, new_stats_bucket startTime :: lBucket :: rest)
    else
      let r := get_stats_bucket_scan startTime rest
      (r.1 + 1, lBucket :: r.2)

/-- Source: `get_stats_bucket`. Yields the returned bucket pointer (a position
in the list, `none` for `nullptr`) and the new value of `currBuckets`. -/
def get_stats_bucket (startTime : Int) (currBuckets : Option (List StatsBucket)) :
    Option Nat × Option (List StatsBucket) :=
  let curr := match currBuckets with
    | none => sflist_new
    | some l => some l
  match curr with
  | none => (none, none)
  | some l =>
    let r := get_stats_bucket_scan startTime l
    (some r.1, some r.2)

/-- Source: `snprintf(tmpBuff, size, ...)` followed by `tmpBuff[size - 1] = 0`:
the text cut to `size - 1` characters. -/
def snprintf (size : Nat) (text : List Char) : List Char :=
  text.take (size - 1)

/-- The `app_name` that the record loop of `dump_statistics` selects for a
record (lines 424-459). -/
def stat_app_name (env : AppInfoEnv) (record : AppIdStatRecord) : List Char :=
  let app_id0 := u32_to_AppId record.app_id
  let cooked_client := decide (app_id0 ≥ 2000000000)
  let app_id := if cooked_client then app_id0 - 2000000000 else app_id0
  match env.get_app_info_entry app_id with
  | some name =>
    if cooked_client then snprintf env.MAX_EVENT_APPNAME_LEN ("_cl_".toList ++ name)
    else name
  | none =>
    if app_id = env.APP_ID_UNKNOWN ∨ app_id = env.APP_ID_UNKNOWN_UI then "__unknown".toList
    else if app_id = (APP_ID_NONE : Int) then "__none".toList
    else if cooked_client then
      snprintf env.MAX_EVENT_APPNAME_LEN
        ("_err_cl_".toList ++ Nat.toDigits 10 (app_id % 2 ^ 32).toNat)
    else
      snprintf env.MAX_EVENT_APPNAME_LEN
        ("_err_".toList ++ Nat.toDigits 10 (app_id % 2 ^ 32).toNat)

/-- Value of `sizeof(struct AppIdStatOutputRecord)` under `#pragma pack(1)`. -/
def outputRecordSize (env : AppInfoEnv) : Nat :=
  env.MAX_EVENT_APPNAME_LEN + 4 + 4

/-- The byte ranges (offset, length) that the record loop writes, starting with
`buffPtr` at byte `off`: the `memcpy` of the name, the two counters, then
`buffPtr += sizeof(*recBuffPtr)/sizeof(*buffPtr)`. -/
def dump_records (env : AppInfoEnv) : Nat → FwAvlTree → List (Nat × Nat)
  | _, [] => []
  | off, (_, record) :: rest =>
    (off, (stat_app_name env record).length)
      :: (off + env.MAX_EVENT_APPNAME_LEN, 4)
      :: (off + env.MAX_EVENT_APPNAME_LEN + 4, 4)
      :: dump_records env (off + 4 * (outputRecordSize env / 4)) rest

/-- The body of the `while` loop of `dump_statistics` for one bucket, up to the
file output: `none` when no buffer is allocated, else `buffSize` and the byte
ranges written into the buffer. -/
def dump_bucket (env : AppInfoEnv) (bucket : StatsBucket) : Option (Nat × List (Nat × Nat)) :=
  if bucket.appRecordCnt ≠ 0 then
    let buffSize := u64 (bucket.appRecordCnt * outputRecordSize env + 4 * 4)
    some (buffSize,
      [(0, 4), (4, 4), (8, 4), (12, 4)] ++ dump_records env (4 * 4) bucket.appsTree)
  else none

/-- Source: `dump_statistics`: every bucket of `logBuckets` is removed, dumped
and freed. Yields the state and what was dumped for each bucket. -/
def dump_statistics (env : AppInfoEnv) (st : AppIdStats) :
    AppIdStats × List (Option (Nat × List (Nat × Nat))) :=
  match st.logBuckets with
  | none => (st, [])
  | some buckets => ({ st with logBuckets := some [] }, buckets.map (dump_bucket env))

/-- Every byte range written lies inside the buffer of the given size. -/
def writesInside (dumped : Nat × List (Nat × Nat)) : Bool :=
  dumped.2.all (fun w => decide (w.1 + w.2 ≤ dumped.1))

/-- Every buffer of a dump was written inside its bounds (a bucket without
records has no buffer). -/
def dumpsInside (dumps : List (Option (Nat × List (Nat × Nat)))) : Bool :=
  dumps.all (fun d =>
    match d with
    | none => true
    | some dumped => writesInside dumped)

/-- The period check shared by `update_appid_statistics` (lines 119-124) and
`flush_appid_statistics`: when `now >= bucketEnd`, end the period, dump, and
start the next one. When the dump writes outside one of its buffers (the
`memcpy` of line 461 with a name longer than the room left) the call has no
successor state. -/
def roll_stats_period (env : AppInfoEnv) (now : Int) (st : AppIdStats) : Option AppIdStats :=
  if now ≥ st.bucketEnd then
    let dumped := dump_statistics env (end_stats_period st)
    if dumpsInside dumped.2 then some (start_stats_period now dumped.1)
    else none
  else some st

/-- Source: `record->initiatorBytes += ...; record->responderBytes += ...;` -/
def add_session_bytes (asd : AppIdSession) (record : AppIdStatRecord) : AppIdStatRecord :=
  { record with
    initiatorBytes := u32 (record.initiatorBytes + asd.initiatorBytes)
    responderBytes := u32 (record.responderBytes + asd.responderBytes) }

/-- The block that `update_appid_statistics` repeats for each of the three ids
(lines 139-165, 172-198, 206-233): look the record up, on a miss allocate one
and insert it, counting it when the insert returns 0, then add the session's
bytes to the record if there is one. -/
def update_app_record (app_id : Nat) (asd : AppIdSession) (mem : Bool) (bucket : StatsBucket) :
    StatsBucket :=
  match fwAvlLookup app_id bucket.appsTree with
  | some record =>
    { bucket with appsTree := storeRecord app_id (add_session_bytes asd record) bucket.appsTree }
  | none =>
    let record := AppIdStatRecord.zeroed
    let r := fwAvlInsert app_id record bucket.appsTree mem
    if r.1 = 0 then
      let record1 := { record with app_id := app_id }
      { bucket with
        appsTree := storeRecord app_id (add_session_bytes asd record1) r.2
        appRecordCnt := u32 (bucket.appRecordCnt + 1) }
    else { bucket with appsTree := r.2 }

/-- Lines 133-234 of `update_appid_statistics`, on the bucket found: add to the
totals, then run the block for the payload id, the service id and the client
id under the three guards of the source. -/
def update_bucket (asd : AppIdSession) (mem : Nat → Bool) (bucket : StatsBucket) : StatsBucket :=
  let b0 : StatsBucket :=
    { bucket with
      txByteCnt := u64 (bucket.txByteCnt + asd.initiatorBytes)
      rxByteCnt := u64 (bucket.rxByteCnt + asd.responderBytes) }
  let b1 :=
    if asd.web_app_id > APP_ID_NONE then
      update_app_record asd.web_app_id asd (mem asd.web_app_id) b0
    else b0
  let b2 :=
    if asd.service_app_id ≠ 0 ∧ asd.service_app_id ≠ asd.web_app_id then
      update_app_record asd.service_app_id asd (mem asd.service_app_id) b1
    else b1
  if asd.client_app_id > APP_ID_NONE ∧ asd.client_app_id ≠ asd.service_app_id
      ∧ asd.client_app_id ≠ asd.web_app_id then
    update_app_record asd.client_app_id asd (mem asd.client_app_id) b2
  else b2

/-- Source: `asd->stats.firstPktsecond - (asd->stats.firstPktsecond % bucketInterval)`. -/
def session_bucket_time (asd : AppIdSession) (st : AppIdStats) : Option Int :=
  if st.bucketInterval = 0 then none
  else some (asd.firstPktsecond - asd.firstPktsecond.tmod st.bucketInterval)

/-- Source: `update_appid_statistics`. `clock` is the value of `time(nullptr)`,
`mem key` tells whether a tree node for `key` can be allocated. -/
def update_appid_statistics (env : AppInfoEnv) (clock : Int) (asd : AppIdSession)
    (mem : Nat → Bool) (st : AppIdStats) : Option AppIdStats :=
  if st.enableAppStats = false then some st
  else
    match get_time clock st with
    | none => none
    | some now =>
      match roll_stats_period env now st with
      | none => none
      | some st1 =>
        match session_bucket_time asd st1 with
        | none => none
        | some bucketTime =>
          match get_stats_bucket bucketTime st1.currBuckets with
          | (none, curr) => some { st1 with currBuckets := curr }
          | (some idx, curr) =>
            some { st1 with
              currBuckets := curr.map (fun l => l.modify (update_bucket asd mem) idx) }

/-- Source: `init_appid_statistics`, with the two configuration members it
reads for the statistics; file names and roll-over limits are left out. -/
def init_appid_statistics (stats_logging_enabled : Bool) (app_stats_period : Int) (clock : Int)
    (st : AppIdStats) : Option AppIdStats :=
  if stats_logging_enabled then
    let st1 := { st with enableAppStats := true, bucketInterval := app_stats_period }
    match get_time clock st1 with
    | none => none
    | some now => some (start_stats_period now st1)
  else some { st with enableAppStats := false }

/-- Source: `flush_appid_statistics`. -/
def flush_appid_statistics (env : AppInfoEnv) (clock : Int) (st : AppIdStats) :
    Option AppIdStats :=
  if st.enableAppStats = false then some st
  else
    match get_time clock st with
    | none => none
    | some now => roll_stats_period env now st

/-- The file-scope variables before `init_appid_statistics`: zero-initialised. -/
def AppIdStats.initial : AppIdStats :=
  { enableAppStats := false, bucketStart := 0, bucketInterval := 0, bucketEnd := 0,
    currBuckets := none, logBuckets := none }

/-- The buckets of a list pointer, none for `nullptr`. -/
def bucketsOf : Option (List StatsBucket) → List StatsBucket
  | none => []
  | some l => l

/-- The start times are strictly ascending from head to tail. -/
def startTimesAscending (l : List StatsBucket) : Prop :=
  List.Pairwise (fun a b => a.startTime < b.startTime) l

/-- The byte counters of the record stored for an application id, zero when
the tree has no record for it. -/
def recordBytes (app_id : Nat) (tree : FwAvlTree) : Nat × Nat :=
  match fwAvlLookup app_id tree with
  | some record => (record.initiatorBytes, record.responderBytes)
  | none => (0, 0)

/-- The id is one of the non-zero ids among the session's payload, service and
client ids. -/
def sessionCounts (asd : AppIdSession) (app_id : Nat) : Prop :=
  app_id ≠ 0 ∧
    (app_id = asd.web_app_id ∨ app_id = asd.service_app_id ∨ app_id = asd.client_app_id)

/-- The keys of the nodes of a tree, in traversal order. -/
def treeKeys (tree : FwAvlTree) : List Nat :=
  tree.map Prod.fst

/-- The record count of a bucket equals the number of nodes of its tree, and
the keys of the tree are distinct non-zero 32-bit ids. -/
def bucketCounted (b : StatsBucket) : Prop :=
  b.appRecordCnt = b.appsTree.length ∧ (treeKeys b.appsTree).Nodup ∧
    ∀ k ∈ treeKeys b.appsTree, 0 < k ∧ k < 2 ^ 32

/-- Every bucket of the current and of the log list is counted. -/
def statsCounted (st : AppIdStats) : Prop :=
  ∀ b, b ∈ bucketsOf st.currBuckets ∨ b ∈ bucketsOf st.logBuckets → bucketCounted b

/-- The three id locals hold `uint32_t` values. -/
def AppIdSession.idsAre32Bit (asd : AppIdSession) : Prop :=
  asd.web_app_id < 2 ^ 32 ∧ asd.service_app_id < 2 ^ 32 ∧ asd.client_app_id < 2 ^ 32

/-- The states the statistics can be in: after `init_appid_statistics` on the
zero-initialised variables, and after any further `update_appid_statistics`
or `flush_appid_statistics` call that returns. -/
inductive StatsReachable (env : AppInfoEnv) : AppIdStats → Prop where
  | init (enabled : Bool) (period clock : Int) (st : AppIdStats)
      (h : init_appid_statistics enabled period clock AppIdStats.initial = some st) :
      StatsReachable env st
  | update (clock : Int) (asd : AppIdSession) (mem : Nat → Bool) (st st1 : AppIdStats)
      (hst : StatsReachable env st) (hids : asd.idsAre32Bit)
      (h : update_appid_statistics env clock asd mem st = some st1) :
      StatsReachable env st1
  | flush (clock : Int) (st st1 : AppIdStats) (hst : StatsReachable env st)
      (h : flush_appid_statistics env clock st = some st1) :
      StatsReachable env st1

/-! ## Concrete inputs for the statistics -/

/-- A name field of 64 characters and a table whose only entry, for
application 1, has a name of 80 characters. -/
def AppInfoEnv.sample : AppInfoEnv :=
  { MAX_EVENT_APPNAME_LEN := 64, APP_ID_UNKNOWN := -1, APP_ID_UNKNOWN_UI := 65535,
    get_app_info_entry := fun id => if id = 1 then some (List.replicate 80 'a') else none }

/-- Statistics enabled with a period of 300 seconds, started at second 900. -/
def AppIdStats.sample : AppIdStats :=
  { enableAppStats := true, bucketStart := 900, bucketInterval := 300, bucketEnd := 1200,
    currBuckets := none, logBuckets := none }

/-- A session first seen at second 1000 with 10 and 20 bytes, payload and
service id both 5 and client id 7. -/
def AppIdSession.sample : AppIdSession :=
  { firstPktsecond := 1000, initiatorBytes := 10, responderBytes := 20, web_app_id := 5,
    service_app_id := 5, client_app_id := 7 }

/-- A session first seen at second 1000 with 10 and 20 bytes whose only id is
the payload id 1. -/
def AppIdSession.sampleOne : AppIdSession :=
  { firstPktsecond := 1000, initiatorBytes := 10, responderBytes := 20, web_app_id := 1,
    service_app_id := 0, client_app_id := 0 }

/-! ## Bit-level facts -/

theorem u32_of_lt {n : Nat} (h : n < 2 ^ 32) : u32 n = n :=
  Nat.mod_eq_of_lt h

theorem u32_lt (n : Nat) : u32 n < 2 ^ 32 :=
  Nat.mod_lt n (by decide)

theorem testBit_u32 (n i : Nat) : (u32 n).testBit i = (decide (i < 32) && n.testBit i) := by
  unfold u32
  exact Nat.testBit_mod_two_pow n 32 i

theorem and_two_pow_ne_zero_iff (s k : Nat) : s &&& 2 ^ k ≠ 0 ↔ s.testBit k = true := by
  rw [Nat.and_two_pow]
  cases h : s.testBit k <;> simp

theorem and_two_pow_eq_zero_iff (s k : Nat) : s &&& 2 ^ k = 0 ↔ s.testBit k = false := by
  rw [Nat.and_two_pow]
  cases h : s.testBit k <;> simp

/-! ## Verdict gate -/

/-- C2: `full_inspection()` is true exactly in the states SETUP and INSPECT and
false in BLOCK, RESET and ALLOW, whatever the rest of the flow holds. -/
theorem full_inspection_iff_setup_or_inspect (f : Flow) :
    (f.full_inspection = true ↔
        (f.flow_state = FlowState.SETUP ∨ f.flow_state = FlowState.INSPECT)) ∧
    (f.full_inspection = false ↔
        (f.flow_state = FlowState.BLOCK ∨ f.flow_state = FlowState.RESET
          ∨ f.flow_state = FlowState.ALLOW)) := by
  cases h : f.flow_state <;> simp [Flow.full_inspection, FlowState.toUInt8, h]

/-! ## Session flags -/

theorem and_seen_both_iff (s : Nat) :
    s &&& SSNFLAG_SEEN_BOTH = SSNFLAG_SEEN_BOTH ↔ (s.testBit 0 = true ∧ s.testBit 1 = true) := by
  have h3 : SSNFLAG_SEEN_BOTH = 2 ^ 2 - 1 := by decide
  rw [h3, Nat.and_pow_two_sub_one_eq_mod]
  simp only [Nat.testBit_to_div_mod, decide_eq_true_eq]
  omega

theorem two_way_traffic_eq_testBit (f : Flow) :
    f.two_way_traffic = (f.ssn_state.session_flags.testBit 0 && f.ssn_state.session_flags.testBit 1) := by
  unfold Flow.two_way_traffic
  rw [Bool.eq_iff_iff]
  simp [and_seen_both_iff]

theorem testBit_set_session_flags (f : Flow) (a i : Nat) :
    (f.set_session_flags a).2.ssn_state.session_flags.testBit i =
      (decide (i < 32) && (f.ssn_state.session_flags.testBit i || a.testBit i)) := by
  simp only [Flow.set_session_flags, testBit_u32, Nat.testBit_or]
  cases decide (i < 32) <;> simp

/-- C3: `two_way_traffic()` holds exactly when both the seen-client and the
seen-server bit are set; from flags with neither bit it is false after one of
the two `set_session_flags` calls and true after both, in either order. -/
theorem two_way_traffic_iff_both_seen (f : Flow) :
    (f.two_way_traffic = true ↔
      (f.get_session_flags &&& SSNFLAG_SEEN_CLIENT ≠ 0 ∧
        f.get_session_flags &&& SSNFLAG_SEEN_SERVER ≠ 0)) ∧
    (f.get_session_flags &&& SSNFLAG_SEEN_CLIENT = 0 →
      f.get_session_flags &&& SSNFLAG_SEEN_SERVER = 0 →
        f.two_way_traffic = false ∧
        (f.set_session_flags SSNFLAG_SEEN_CLIENT).2.two_way_traffic = false ∧
        (f.set_session_flags SSNFLAG_SEEN_SERVER).2.two_way_traffic = false ∧
        ((f.set_session_flags SSNFLAG_SEEN_CLIENT).2.set_session_flags
            SSNFLAG_SEEN_SERVER).2.two_way_traffic = true ∧
        ((f.set_session_flags SSNFLAG_SEEN_SERVER).2.set_session_flags
            SSNFLAG_SEEN_CLIENT).2.two_way_traffic = true) := by
  have hc : SSNFLAG_SEEN_CLIENT = 2 ^ 0 := by decide
  have hs : SSNFLAG_SEEN_SERVER = 2 ^ 1 := by decide
  constructor
  · rw [two_way_traffic_eq_testBit, Flow.get_session_flags, hc, hs,
      and_two_pow_ne_zero_iff, and_two_pow_ne_zero_iff]
    simp
  · intro h0 h1
    rw [Flow.get_session_flags, hc, and_two_pow_eq_zero_iff] at h0
    rw [Flow.get_session_flags, hs, and_two_pow_eq_zero_iff] at h1
    simp only [two_way_traffic_eq_testBit, testBit_set_session_flags, h0, h1, hc, hs,
      Nat.testBit_two_pow]
    decide

/-- Witness for C3 on the zeroed flow: neither seen-bit is set, and after both
calls the predicate is true. -/
theorem two_way_traffic_iff_both_seen_witness :
    Flow.zeroed.get_session_flags &&& SSNFLAG_SEEN_CLIENT = 0 ∧
    Flow.zeroed.get_session_flags &&& SSNFLAG_SEEN_SERVER = 0 ∧
    ((Flow.zeroed.set_session_flags SSNFLAG_SEEN_CLIENT).2.set_session_flags
        SSNFLAG_SEEN_SERVER).2.two_way_traffic = true :=
  ⟨by decide, by decide,
    ((two_way_traffic_iff_both_seen Flow.zeroed).2 (by decide) (by decide)).2.2.2.1⟩

/-! ## Sequences of state and flag calls -/

theorem Flow.run_append (pre post : List FlowOp) (f : Flow) :
    Flow.run (pre ++ post) f = Flow.run post (Flow.run pre f) := by
  induction pre generalizing f with
  | nil => rfl
  | cons op ops ih => exact ih (op.apply f)

theorem FlowOp.apply_keeps_closed (op : FlowOp) (f : Flow) (hop : op.reopens = false)
    (hf : f.full_inspection = false) : (op.apply f).full_inspection = false := by
  cases op with
  | set_state fs => cases fs <;> simp_all [FlowOp.reopens, FlowOp.apply, Flow.set_state,
      Flow.full_inspection, FlowState.toUInt8]
  | block => simpa [FlowOp.apply, Flow.block, Flow.full_inspection] using hf
  | update_session_flags a =>
    simpa [FlowOp.apply, Flow.update_session_flags, Flow.full_inspection] using hf
  | set_session_flags a =>
    simpa [FlowOp.apply, Flow.set_session_flags, Flow.full_inspection] using hf
  | clear_session_flags a =>
    simpa [FlowOp.apply, Flow.clear_session_flags, Flow.full_inspection] using hf
  | set_proxied => simpa [FlowOp.apply, Flow.set_proxied, Flow.full_inspection] using hf

theorem Flow.run_keeps_closed (ops : List FlowOp) (f : Flow)
    (hops : ∀ op ∈ ops, op.reopens = false) (hf : f.full_inspection = false) :
    (Flow.run ops f).full_inspection = false := by
  induction ops generalizing f with
  | nil => exact hf
  | cons op ops ih =>
    have h1 : (op.apply f).full_inspection = false :=
      op.apply_keeps_closed f (hops op (List.mem_cons_self op ops)) hf
    exact ih (op.apply f) (fun o ho => hops o (List.mem_cons_of_mem op ho)) h1

/-- C4, as stated, fails: on the zeroed flow `set_state(BLOCK)` makes
`full_inspection()` false and a following `set_state(INSPECT)` makes it true
again. -/
theorem full_inspection_reopened_by_set_state :
    (Flow.run [FlowOp.set_state FlowState.BLOCK] Flow.zeroed).full_inspection = false ∧
    (Flow.run ([FlowOp.set_state FlowState.BLOCK] ++ [FlowOp.set_state FlowState.INSPECT])
        Flow.zeroed).full_inspection = true := by
  decide

/-- C4, amended: once `full_inspection()` is false it stays false after every
further sequence of `block`, session-flag mutators and `set_state` calls whose
argument is BLOCK, RESET or ALLOW; only a `set_state` with SETUP or INSPECT,
which the flow does not reject, can make it true again. -/
theorem full_inspection_stays_false (f : Flow) (pre post : List FlowOp)
    (hclosed : (Flow.run pre f).full_inspection = false)
    (hpost : ∀ op ∈ post, op.reopens = false) :
    (Flow.run (pre ++ post) f).full_inspection = false ∧
    ∀ fs, (Flow.run (pre ++ post ++ [FlowOp.set_state fs]) f).full_inspection
      = (FlowOp.set_state fs).reopens := by
  constructor
  · rw [Flow.run_append]
    exact Flow.run_keeps_closed post _ hpost hclosed
  · intro fs
    rw [Flow.run_append]
    cases fs <;> rfl

/-- Witness for the amended C4: after `set_state(BLOCK)` a `block()` and a
`set_state(RESET)` leave `full_inspection()` false. -/
theorem full_inspection_stays_false_witness :
    (Flow.run [FlowOp.set_state FlowState.BLOCK] Flow.zeroed).full_inspection = false ∧
    (Flow.run ([FlowOp.set_state FlowState.BLOCK] ++
        [FlowOp.block, FlowOp.set_state FlowState.RESET]) Flow.zeroed).full_inspection = false :=
  ⟨by decide,
    (full_inspection_stays_false Flow.zeroed [FlowOp.set_state FlowState.BLOCK]
      [FlowOp.block, FlowOp.set_state FlowState.RESET] (by decide) (by decide)).1⟩

/-! ## `set_state`, `block` and `was_blocked` -/

theorem ssnflag_block_lt : SSNFLAG_BLOCK < 2 ^ 32 := by decide

theorem and_block_eq_zero (s : Nat) (hc : s &&& SSNFLAG_DROP_CLIENT = 0)
    (hs : s &&& SSNFLAG_DROP_SERVER = 0) : s &&& SSNFLAG_BLOCK = 0 := by
  unfold SSNFLAG_BLOCK
  rw [Nat.and_or_distrib_left, hc, hs]
  rfl

/-- C5: `set_state(fs)` writes `flow_state` and nothing else, so the session
flags and `was_blocked()` are as before; with both drop-direction flags clear,
`set_state(BLOCK)` turns `full_inspection()` off while `was_blocked()` stays
false. -/
theorem set_state_changes_only_flow_state (fs : FlowState) (f : Flow) :
    (f.set_state fs).flow_state = fs ∧
    (f.set_state fs).ssn_state = f.ssn_state ∧
    (f.set_state fs).previous_ssn_state = f.previous_ssn_state ∧
    (f.set_state fs).ssn_client = f.ssn_client ∧
    (f.set_state fs).ssn_server = f.ssn_server ∧
    (f.set_state fs).clouseau = f.clouseau ∧
    (f.set_state fs).gadget = f.gadget ∧
    (f.set_state fs).data = f.data ∧
    (f.set_state fs).disable_inspect = f.disable_inspect ∧
    (f.set_state fs).get_session_flags = f.get_session_flags ∧
    (f.set_state fs).was_blocked = f.was_blocked ∧
    (f.get_session_flags &&& SSNFLAG_DROP_CLIENT = 0 →
      f.get_session_flags &&& SSNFLAG_DROP_SERVER = 0 →
        (f.set_state FlowState.BLOCK).full_inspection = false ∧
        (f.set_state FlowState.BLOCK).was_blocked = false) := by
  refine ⟨rfl, rfl, rfl, rfl, rfl, rfl, rfl, rfl, rfl, rfl, rfl, ?_⟩
  intro hc hs
  refine ⟨rfl, ?_⟩
  have h0 : f.ssn_state.session_flags &&& SSNFLAG_BLOCK = 0 := and_block_eq_zero _ hc hs
  simp [Flow.was_blocked, Flow.set_state, h0]

/-- Witness for C5 on the zeroed flow, whose drop-direction flags are clear. -/
theorem set_state_changes_only_flow_state_witness :
    Flow.zeroed.get_session_flags &&& SSNFLAG_DROP_CLIENT = 0 ∧
    Flow.zeroed.get_session_flags &&& SSNFLAG_DROP_SERVER = 0 ∧
    (Flow.zeroed.set_state FlowState.BLOCK).full_inspection = false ∧
    (Flow.zeroed.set_state FlowState.BLOCK).was_blocked = false :=
  ⟨by decide, by decide,
    (set_state_changes_only_flow_state FlowState.BLOCK Flow.zeroed).2.2.2.2.2.2.2.2.2.2.2
      (by decide) (by decide)⟩

theorem block_flags_of_lt (f : Flow) (h : f.get_session_flags < 2 ^ 32) :
    f.block.ssn_state.session_flags = f.ssn_state.session_flags ||| SSNFLAG_BLOCK := by
  simp only [Flow.block]
  exact u32_of_lt (Nat.or_lt_two_pow h ssnflag_block_lt)

/-- C6: on a flow with a 32-bit flag word `block()` sets both drop-direction
flags, keeps every flag outside `SSNFLAG_BLOCK` and every other member as it
was, makes `was_blocked()` true, and is idempotent. -/
theorem block_sets_both_drop_flags (f : Flow) (h : f.get_session_flags < 2 ^ 32) :
    f.block.get_session_flags &&& SSNFLAG_DROP_CLIENT = SSNFLAG_DROP_CLIENT ∧
    f.block.get_session_flags &&& SSNFLAG_DROP_SERVER = SSNFLAG_DROP_SERVER ∧
    (∀ m, m &&& SSNFLAG_BLOCK = 0 →
      f.block.get_session_flags &&& m = f.get_session_flags &&& m) ∧
    (∀ i, SSNFLAG_BLOCK.testBit i = false →
      f.block.get_session_flags.testBit i = f.get_session_flags.testBit i) ∧
    f.block.flow_state = f.flow_state ∧
    f.block = { f with ssn_state :=
      { f.ssn_state with session_flags := f.get_session_flags ||| SSNFLAG_BLOCK } } ∧
    f.block.was_blocked = true ∧
    f.block.block = f.block := by
  have hb := block_flags_of_lt f h
  have hf : f.block = { f with ssn_state :=
      { f.ssn_state with session_flags := f.get_session_flags ||| SSNFLAG_BLOCK } } := by
    have h32 : f.ssn_state.session_flags < 2 ^ 32 := h
    simp only [Flow.block, Flow.get_session_flags]
    rw [u32_of_lt (Nat.or_lt_two_pow h32 ssnflag_block_lt)]
  have hcl : (f.ssn_state.session_flags ||| SSNFLAG_BLOCK) &&& SSNFLAG_DROP_CLIENT
      = SSNFLAG_DROP_CLIENT := by
    apply Nat.eq_of_testBit_eq
    intro i
    have e1 : SSNFLAG_BLOCK = 2 ^ 16 ||| 2 ^ 17 := by decide
    have e2 : SSNFLAG_DROP_CLIENT = 2 ^ 16 := by decide
    rw [e1, e2]
    simp only [Nat.testBit_and, Nat.testBit_or, Nat.testBit_two_pow]
    by_cases h16 : 16 = i <;> simp [h16]
  have hsv : (f.ssn_state.session_flags ||| SSNFLAG_BLOCK) &&& SSNFLAG_DROP_SERVER
      = SSNFLAG_DROP_SERVER := by
    apply Nat.eq_of_testBit_eq
    intro i
    have e1 : SSNFLAG_BLOCK = 2 ^ 16 ||| 2 ^ 17 := by decide
    have e2 : SSNFLAG_DROP_SERVER = 2 ^ 17 := by decide
    rw [e1, e2]
    simp only [Nat.testBit_and, Nat.testBit_or, Nat.testBit_two_pow]
    by_cases h17 : 17 = i <;> simp [h17]
  refine ⟨?_, ?_, ?_, ?_, rfl, hf, ?_, ?_⟩
  · rw [Flow.get_session_flags, hb]; exact hcl
  · rw [Flow.get_session_flags, hb]; exact hsv
  · intro m hm
    rw [Flow.get_session_flags, hb, Flow.get_session_flags, Nat.and_distrib_right,
      Nat.and_comm SSNFLAG_BLOCK m, hm, Nat.or_zero]
  · intro i hi
    rw [Flow.get_session_flags, hb, Flow.get_session_flags, Nat.testBit_or, hi, Bool.or_false]
  · have hne : (f.ssn_state.session_flags ||| SSNFLAG_BLOCK) &&& SSNFLAG_BLOCK ≠ 0 := by
      intro h0
      have h1 : ((f.ssn_state.session_flags ||| SSNFLAG_BLOCK) &&& SSNFLAG_BLOCK).testBit 16
          = true := by
        rw [Nat.testBit_and, Nat.testBit_or]
        have : SSNFLAG_BLOCK.testBit 16 = true := by decide
        simp [this]
      rw [h0] at h1
      simp at h1
    simp [Flow.was_blocked, hb, hne]
  · have h2 : f.block.get_session_flags < 2 ^ 32 := by
      rw [Flow.get_session_flags, hb]
      exact Nat.or_lt_two_pow h ssnflag_block_lt
    have hb2 := block_flags_of_lt f.block h2
    have hidem : f.block.ssn_state.session_flags ||| SSNFLAG_BLOCK
        = f.block.ssn_state.session_flags := by
      rw [hb, Nat.or_assoc, Nat.or_self]
    rw [hidem] at hb2
    have hu : u32 (f.block.ssn_state.session_flags ||| SSNFLAG_BLOCK)
        = f.block.ssn_state.session_flags := by
      simpa [Flow.block] using hb2
    show ({ f.block with ssn_state := { f.block.ssn_state with
      session_flags := u32 (f.block.ssn_state.session_flags ||| SSNFLAG_BLOCK) } } : Flow)
        = f.block
    rw [hu]

/-- Witness for C6 on the zeroed flow. -/
theorem block_sets_both_drop_flags_witness :
    Flow.zeroed.get_session_flags < 2 ^ 32 ∧ Flow.zeroed.block.was_blocked = true ∧
    Flow.zeroed.block.block = Flow.zeroed.block :=
  ⟨by decide,
    (block_sets_both_drop_flags Flow.zeroed (by decide)).2.2.2.2.2.2.1,
    (block_sets_both_drop_flags Flow.zeroed (by decide)).2.2.2.2.2.2.2⟩

/-! ## `set_session_flags` -/

theorem set_session_flags_of_lt (f : Flow) (a : Nat) (hs : f.get_session_flags < 2 ^ 32)
    (ha : a < 2 ^ 32) :
    f.set_session_flags a = (f.get_session_flags ||| a,
      { f with ssn_state :=
        { f.ssn_state with session_flags := f.get_session_flags ||| a } }) := by
  have hs1 : f.ssn_state.session_flags < 2 ^ 32 := hs
  simp only [Flow.set_session_flags, Flow.get_session_flags]
  rw [u32_of_lt ha, u32_of_lt (Nat.or_lt_two_pow hs1 ha)]

/-- C10: on 32-bit values `set_session_flags(a)` stores and returns `s | a`;
two calls with masks `a` and `b` leave `s | a | b` in either order, a repeated
call changes nothing, and from `s = 0` the two seen-flags give their
bitwise-or with `two_way_traffic()` true. -/
theorem set_session_flags_stores_or (f : Flow) (a b : Nat)
    (hs : f.get_session_flags < 2 ^ 32) (ha : a < 2 ^ 32) (hb : b < 2 ^ 32) :
    (f.set_session_flags a).1 = f.get_session_flags ||| a ∧
    (f.set_session_flags a).2.get_session_flags = f.get_session_flags ||| a ∧
    ((f.set_session_flags a).2.set_session_flags b).2.get_session_flags
      = f.get_session_flags ||| a ||| b ∧
    ((f.set_session_flags b).2.set_session_flags a).2.get_session_flags
      = f.get_session_flags ||| a ||| b ∧
    ((f.set_session_flags a).2.set_session_flags b).2
      = ((f.set_session_flags b).2.set_session_flags a).2 ∧
    ((f.set_session_flags a).2.set_session_flags a) = (f.set_session_flags a) ∧
    (f.get_session_flags = 0 →
      ((f.set_session_flags SSNFLAG_SEEN_CLIENT).2.set_session_flags
          SSNFLAG_SEEN_SERVER).2.get_session_flags
        = SSNFLAG_SEEN_CLIENT ||| SSNFLAG_SEEN_SERVER ∧
      ((f.set_session_flags SSNFLAG_SEEN_CLIENT).2.set_session_flags
          SSNFLAG_SEEN_SERVER).2.two_way_traffic = true) := by
  have hs1 : f.ssn_state.session_flags < 2 ^ 32 := hs
  have ea := set_session_flags_of_lt f a hs ha
  have eb := set_session_flags_of_lt f b hs hb
  have hsa : (f.set_session_flags a).2.get_session_flags < 2 ^ 32 := by
    rw [ea]; exact Nat.or_lt_two_pow hs1 ha
  have hsb : (f.set_session_flags b).2.get_session_flags < 2 ^ 32 := by
    rw [eb]; exact Nat.or_lt_two_pow hs1 hb
  have eab := set_session_flags_of_lt (f.set_session_flags a).2 b hsa hb
  have eba := set_session_flags_of_lt (f.set_session_flags b).2 a hsb ha
  have eaa := set_session_flags_of_lt (f.set_session_flags a).2 a hsa ha
  have hcomm : f.ssn_state.session_flags ||| b ||| a = f.ssn_state.session_flags ||| a ||| b := by
    rw [Nat.or_assoc, Nat.or_comm b a, Nat.or_assoc]
  have hidem : f.ssn_state.session_flags ||| a ||| a = f.ssn_state.session_flags ||| a := by
    rw [Nat.or_assoc, Nat.or_self]
  refine ⟨?_, ?_, ?_, ?_, ?_, ?_, ?_⟩
  · rw [ea]
  · rw [ea]; rfl
  · rw [eab, ea]; rfl
  · rw [eba, eb]; exact hcomm
  · rw [eab, eba, ea, eb]
    simp only [Flow.get_session_flags, hcomm]
  · rw [eaa, ea]
    simp only [Flow.get_session_flags, hidem]
  · intro h0
    have hc : SSNFLAG_SEEN_CLIENT < 2 ^ 32 := by decide
    have hv : SSNFLAG_SEEN_SERVER < 2 ^ 32 := by decide
    have ec := set_session_flags_of_lt f SSNFLAG_SEEN_CLIENT hs hc
    have hsc : (f.set_session_flags SSNFLAG_SEEN_CLIENT).2.get_session_flags < 2 ^ 32 := by
      rw [ec]; exact Nat.or_lt_two_pow hs1 hc
    have ecs := set_session_flags_of_lt (f.set_session_flags SSNFLAG_SEEN_CLIENT).2
      SSNFLAG_SEEN_SERVER hsc hv
    have h00 : f.ssn_state.session_flags = 0 := h0
    rw [ecs, ec]
    simp only [Flow.get_session_flags, Flow.two_way_traffic, h00, Nat.zero_or]
    exact ⟨trivial, by decide⟩

/-- Witness for C10: the scenario on the zeroed flow. -/
theorem set_session_flags_stores_or_witness :
    Flow.zeroed.get_session_flags < 2 ^ 32 ∧ SSNFLAG_SEEN_CLIENT < 2 ^ 32 ∧
    SSNFLAG_SEEN_SERVER < 2 ^ 32 ∧ Flow.zeroed.get_session_flags = 0 ∧
    ((Flow.zeroed.set_session_flags SSNFLAG_SEEN_CLIENT).2.set_session_flags
        SSNFLAG_SEEN_SERVER).2.get_session_flags = 3 ∧
    ((Flow.zeroed.set_session_flags SSNFLAG_SEEN_CLIENT).2.set_session_flags
        SSNFLAG_SEEN_SERVER).2.two_way_traffic = true :=
  ⟨by decide, by decide, by decide, by decide,
    ((set_session_flags_stores_or Flow.zeroed SSNFLAG_SEEN_CLIENT SSNFLAG_SEEN_SERVER
      (by decide) (by decide) (by decide)).2.2.2.2.2.2 (by decide)).1,
    ((set_session_flags_stores_or Flow.zeroed SSNFLAG_SEEN_CLIENT SSNFLAG_SEEN_SERVER
      (by decide) (by decide) (by decide)).2.2.2.2.2.2 (by decide)).2⟩

/-! ## Inspector slots -/

/-- C7: each of the five setters, given inspector `i`, returns normally with
`i` stored in its own slot, every other member of the flow as before, and
exactly one call, `add_ref` on `i`, appended to the calls made on inspectors. -/
theorem set_slot_stores_and_acquires_once (w : Sys) (i : Nat) :
    (∃ w1, Flow.set_client (some i) w = some w1 ∧
      w1.flow = { w.flow with ssn_client := some i } ∧
      w1.calls = w.calls ++ [RefCall.add_ref i]) ∧
    (∃ w1, Flow.set_server (some i) w = some w1 ∧
      w1.flow = { w.flow with ssn_server := some i } ∧
      w1.calls = w.calls ++ [RefCall.add_ref i]) ∧
    (∃ w1, Flow.set_clouseau (some i) w = some w1 ∧
      w1.flow = { w.flow with clouseau := some i } ∧
      w1.calls = w.calls ++ [RefCall.add_ref i]) ∧
    (∃ w1, Flow.set_gadget (some i) w = some w1 ∧
      w1.flow = { w.flow with gadget := some i } ∧
      w1.calls = w.calls ++ [RefCall.add_ref i]) ∧
    (∃ w1, Flow.set_data (some i) w = some w1 ∧
      w1.flow = { w.flow with data := some i } ∧
      w1.calls = w.calls ++ [RefCall.add_ref i]) :=
  ⟨⟨_, rfl, rfl, rfl⟩, ⟨_, rfl, rfl, rfl⟩, ⟨_, rfl, rfl, rfl⟩, ⟨_, rfl, rfl, rfl⟩,
    ⟨_, rfl, rfl, rfl⟩⟩

theorem ref_count_add_then_rem (i : Nat) (c : Nat → Int) :
    (fun j => if j = i then (if j = i then c j + 1 else c j) - 1
      else (if j = i then c j + 1 else c j)) = c := by
  funext j
  by_cases h : j = i <;> simp [h]

/-- C8: for clouseau, gadget and data, `set_X(i)` followed at once by
`clear_X()` returns normally with slot X null, every other member of the flow
as before, every inspector's counter (that of `i` included) at its earlier
value, and just the pair `add_ref i`, `rem_ref i` added to the calls. -/
theorem set_then_clear_restores (w : Sys) (i : Nat) :
    (∃ w2, (Flow.set_clouseau (some i) w).bind Flow.clear_clouseau = some w2 ∧
      w2.flow = { w.flow with clouseau := none } ∧ w2.ref_count = w.ref_count ∧
      w2.calls = w.calls ++ [RefCall.add_ref i, RefCall.rem_ref i]) ∧
    (∃ w2, (Flow.set_gadget (some i) w).bind Flow.clear_gadget = some w2 ∧
      w2.flow = { w.flow with gadget := none } ∧ w2.ref_count = w.ref_count ∧
      w2.calls = w.calls ++ [RefCall.add_ref i, RefCall.rem_ref i]) ∧
    (∃ w2, (Flow.set_data (some i) w).bind Flow.clear_data = some w2 ∧
      w2.flow = { w.flow with data := none } ∧ w2.ref_count = w.ref_count ∧
      w2.calls = w.calls ++ [RefCall.add_ref i, RefCall.rem_ref i]) := by
  refine ⟨⟨_, rfl, rfl, ?_, ?_⟩, ⟨_, rfl, rfl, ?_, ?_⟩, ⟨_, rfl, rfl, ?_, ?_⟩⟩
  all_goals first
    | exact ref_count_add_then_rem i w.ref_count
    | simp [Inspector.add_ref, Inspector.rem_ref]

/-! ## Sequences of binding calls -/

theorem Sys.run_split (pre suf : List BindOp) (w : Sys) :
    Sys.run (pre ++ suf) w = (Sys.run pre w).bind (Sys.run suf) := by
  induction pre generalizing w with
  | nil => rfl
  | cons op ops ih =>
    simp only [List.cons_append, Sys.run]
    cases h : op.apply w with
    | none => rfl
    | some w1 => exact ih w1

theorem Sys.respects_append_left (ok : BindOp → Flow → Bool) (pre suf : List BindOp) (w : Sys)
    (h : Sys.respects ok (pre ++ suf) w = true) : Sys.respects ok pre w = true := by
  induction pre generalizing w with
  | nil => rfl
  | cons op ops ih =>
    simp only [List.cons_append, Sys.respects, Bool.and_eq_true] at h ⊢
    refine ⟨h.1, ?_⟩
    cases hstep : op.apply w with
    | none => rfl
    | some w1 =>
      have h2 := h.2
      rw [hstep] at h2
      exact ih w1 h2

theorem Flow.clear_clouseau_bound (w : Sys) (j : Nat) (h : w.flow.clouseau = some j) :
    Flow.clear_clouseau w = some
      { flow := { w.flow with clouseau := none }
        ref_count := (Inspector.rem_ref j w).ref_count
        calls := w.calls ++ [RefCall.rem_ref j] } := by
  simp only [Flow.clear_clouseau, h]
  rfl

theorem Flow.clear_gadget_bound (w : Sys) (j : Nat) (h : w.flow.gadget = some j) :
    Flow.clear_gadget w = some
      { flow := { w.flow with gadget := none }
        ref_count := (Inspector.rem_ref j w).ref_count
        calls := w.calls ++ [RefCall.rem_ref j] } := by
  simp only [Flow.clear_gadget, h]
  rfl

theorem Flow.clear_data_bound (w : Sys) (j : Nat) (h : w.flow.data = some j) :
    Flow.clear_data w = some
      { flow := { w.flow with data := none }
        ref_count := (Inspector.rem_ref j w).ref_count
        calls := w.calls ++ [RefCall.rem_ref j] } := by
  simp only [Flow.clear_data, h]
  rfl

/-- A call that passes an inspector to a setter, or clears a bound slot, returns. -/
theorem BindOp.apply_returns (op : BindOp) (w : Sys) (harg : op.setsInspector w.flow = true)
    (hclear : op.clearsBound w.flow = true) : ∃ w1, op.apply w = some w1 := by
  cases op with
  | set_clouseau ins =>
    cases ins with
    | none => simp [BindOp.setsInspector] at harg
    | some j => exact ⟨_, rfl⟩
  | set_gadget ins =>
    cases ins with
    | none => simp [BindOp.setsInspector] at harg
    | some j => exact ⟨_, rfl⟩
  | set_data pd =>
    cases pd with
    | none => simp [BindOp.setsInspector] at harg
    | some j => exact ⟨_, rfl⟩
  | clear_clouseau =>
    cases h : w.flow.clouseau with
    | none => simp [BindOp.clearsBound, h] at hclear
    | some j => exact ⟨_, Flow.clear_clouseau_bound w j h⟩
  | clear_gadget =>
    cases h : w.flow.gadget with
    | none => simp [BindOp.clearsBound, h] at hclear
    | some j => exact ⟨_, Flow.clear_gadget_bound w j h⟩
  | clear_data =>
    cases h : w.flow.data with
    | none => simp [BindOp.clearsBound, h] at hclear
    | some j => exact ⟨_, Flow.clear_data_bound w j h⟩

theorem Sys.run_returns (ops : List BindOp) (w : Sys)
    (hargs : Sys.respects BindOp.setsInspector ops w = true)
    (hclear : Sys.respects BindOp.clearsBound ops w = true) : ∃ w1, Sys.run ops w = some w1 := by
  induction ops generalizing w with
  | nil => exact ⟨w, rfl⟩
  | cons op ops ih =>
    simp only [Sys.respects, Bool.and_eq_true] at hargs hclear
    obtain ⟨w1, hstep⟩ := op.apply_returns w hargs.1 hclear.1
    have ha := hargs.2
    have hc := hclear.2
    rw [hstep] at ha hc
    obtain ⟨w2, hrun⟩ := ih w1 ha hc
    exact ⟨w2, by simp only [Sys.run, hstep, hrun]⟩

theorem addRefCount_append_add (i j : Nat) (calls : List RefCall) :
    addRefCount i (calls ++ [RefCall.add_ref j]) = addRefCount i calls + (if j = i then 1 else 0) := by
  unfold addRefCount
  rw [List.count_append]
  by_cases h : j = i <;> simp [h, List.count_cons]

theorem addRefCount_append_rem (i j : Nat) (calls : List RefCall) :
    addRefCount i (calls ++ [RefCall.rem_ref j]) = addRefCount i calls := by
  unfold addRefCount
  rw [List.count_append]
  simp [List.count_cons]

theorem remRefCount_append_add (i j : Nat) (calls : List RefCall) :
    remRefCount i (calls ++ [RefCall.add_ref j]) = remRefCount i calls := by
  unfold remRefCount
  rw [List.count_append]
  simp [List.count_cons]

theorem remRefCount_append_rem (i j : Nat) (calls : List RefCall) :
    remRefCount i (calls ++ [RefCall.rem_ref j]) = remRefCount i calls + (if j = i then 1 else 0) := by
  unfold remRefCount
  rw [List.count_append]
  by_cases h : j = i <;> simp [h, List.count_cons]

/-- One binding call keeps, for every inspector, the acquires equal to the
releases plus the slots that hold it, when setters only fill empty slots. -/
theorem BindOp.apply_balanced (op : BindOp) (w w1 : Sys) (hstep : op.apply w = some w1)
    (hset : op.setsEmpty w.flow = true)
    (hinv : ∀ i, addRefCount i w.calls = remRefCount i w.calls + heldBy i w.flow) :
    ∀ i, addRefCount i w1.calls = remRefCount i w1.calls + heldBy i w1.flow := by
  intro i
  have hi := hinv i
  cases op with
  | set_clouseau ins =>
    cases ins with
    | none => simp [BindOp.apply, Flow.set_clouseau] at hstep
    | some j =>
      have hc : w.flow.clouseau = none := by simpa [BindOp.setsEmpty] using hset
      have e : w1 = Inspector.add_ref j { w with flow := { w.flow with clouseau := some j } } :=
        (Option.some.inj hstep).symm
      subst e
      simp only [Inspector.add_ref, addRefCount_append_add, remRefCount_append_add, heldBy]
      simp only [heldBy, hc] at hi
      by_cases hj : j = i <;> simp [hj] at hi ⊢ <;> omega
  | set_gadget ins =>
    cases ins with
    | none => simp [BindOp.apply, Flow.set_gadget] at hstep
    | some j =>
      have hc : w.flow.gadget = none := by simpa [BindOp.setsEmpty] using hset
      have e : w1 = Inspector.add_ref j { w with flow := { w.flow with gadget := some j } } :=
        (Option.some.inj hstep).symm
      subst e
      simp only [Inspector.add_ref, addRefCount_append_add, remRefCount_append_add, heldBy]
      simp only [heldBy, hc] at hi
      by_cases hj : j = i <;> simp [hj] at hi ⊢ <;> omega
  | set_data pd =>
    cases pd with
    | none => simp [BindOp.apply, Flow.set_data] at hstep
    | some j =>
      have hc : w.flow.data = none := by simpa [BindOp.setsEmpty] using hset
      have e : w1 = Inspector.add_ref j { w with flow := { w.flow with data := some j } } :=
        (Option.some.inj hstep).symm
      subst e
      simp only [Inspector.add_ref, addRefCount_append_add, remRefCount_append_add, heldBy]
      simp only [heldBy, hc] at hi
      by_cases hj : j = i <;> simp [hj] at hi ⊢ <;> omega
  | clear_clouseau =>
    cases hc : w.flow.clouseau with
    | none => simp [BindOp.apply, Flow.clear_clouseau, hc] at hstep
    | some j =>
      have e := (Option.some.inj ((Flow.clear_clouseau_bound w j hc).symm.trans hstep)).symm
      subst e
      simp only [addRefCount_append_rem, remRefCount_append_rem, heldBy]
      simp only [heldBy, hc] at hi
      by_cases hj : j = i <;> simp [hj] at hi ⊢ <;> omega
  | clear_gadget =>
    cases hc : w.flow.gadget with
    | none => simp [BindOp.apply, Flow.clear_gadget, hc] at hstep
    | some j =>
      have e := (Option.some.inj ((Flow.clear_gadget_bound w j hc).symm.trans hstep)).symm
      subst e
      simp only [addRefCount_append_rem, remRefCount_append_rem, heldBy]
      simp only [heldBy, hc] at hi
      by_cases hj : j = i <;> simp [hj] at hi ⊢ <;> omega
  | clear_data =>
    cases hc : w.flow.data with
    | none => simp [BindOp.apply, Flow.clear_data, hc] at hstep
    | some j =>
      have e := (Option.some.inj ((Flow.clear_data_bound w j hc).symm.trans hstep)).symm
      subst e
      simp only [addRefCount_append_rem, remRefCount_append_rem, heldBy]
      simp only [heldBy, hc] at hi
      by_cases hj : j = i <;> simp [hj] at hi ⊢ <;> omega

theorem Sys.run_balanced (ops : List BindOp) (w w1 : Sys) (hrun : Sys.run ops w = some w1)
    (hset : Sys.respects BindOp.setsEmpty ops w = true)
    (hinv : ∀ i, addRefCount i w.calls = remRefCount i w.calls + heldBy i w.flow) :
    ∀ i, addRefCount i w1.calls = remRefCount i w1.calls + heldBy i w1.flow := by
  induction ops generalizing w with
  | nil =>
    have e : w = w1 := Option.some.inj hrun
    subst e
    exact hinv
  | cons op ops ih =>
    simp only [Sys.respects, Bool.and_eq_true] at hset
    cases hstep : op.apply w with
    | none => simp [Sys.run, hstep] at hrun
    | some w2 =>
      have h2 := hset.2
      rw [hstep] at h2
      have hrun2 : Sys.run ops w2 = some w1 := by simpa [Sys.run, hstep] using hrun
      exact ih w2 hrun2 h2 (op.apply_balanced w w2 hstep hset.1 hinv)

/-- C1, as stated, fails: from the zeroed flow the calls `set_clouseau(1)`,
`set_clouseau(2)`, `clear_clouseau()` pass inspectors to the setters and clear
only a bound slot, they return with all three slots null, and yet inspector 1
has received one `add_ref` and no `rem_ref`. -/
theorem overwritten_binding_is_never_released :
    Sys.respects BindOp.setsInspector
      [BindOp.set_clouseau (some 1), BindOp.set_clouseau (some 2), BindOp.clear_clouseau]
      Sys.zeroed = true ∧
    Sys.respects BindOp.clearsBound
      [BindOp.set_clouseau (some 1), BindOp.set_clouseau (some 2), BindOp.clear_clouseau]
      Sys.zeroed = true ∧
    (Sys.run
      [BindOp.set_clouseau (some 1), BindOp.set_clouseau (some 2), BindOp.clear_clouseau]
      Sys.zeroed).map
        (fun w => (w.flow.clouseau, w.flow.gadget, w.flow.data,
          addRefCount 1 w.calls, remRefCount 1 w.calls))
      = some (none, none, none, 1, 0) := by
  decide

/-- C1, amended: take calls of set_clouseau / set_gadget / set_data /
clear_clouseau / clear_gadget / clear_data on a flow whose three slots start
null, where every setter is passed an inspector and is called on a null slot
and every clearer is called on a bound slot. The calls all return; at every
point of the sequence each inspector has received as many `add_ref` calls as
`rem_ref` calls plus the number of slots holding it; and if the three slots
are null at the end, its `add_ref` and `rem_ref` calls are equal in number. -/
theorem binding_calls_balanced (w0 : Sys) (pre suf : List BindOp)
    (hstart : w0.flow.clouseau = none ∧ w0.flow.gadget = none ∧ w0.flow.data = none)
    (hcalls : w0.calls = [])
    (hargs : Sys.respects BindOp.setsInspector (pre ++ suf) w0 = true)
    (hclear : Sys.respects BindOp.clearsBound (pre ++ suf) w0 = true)
    (hset : Sys.respects BindOp.setsEmpty (pre ++ suf) w0 = true) :
    ∃ w1 w, Sys.run pre w0 = some w1 ∧ Sys.run (pre ++ suf) w0 = some w ∧
      (∀ i, addRefCount i w1.calls = remRefCount i w1.calls + heldBy i w1.flow) ∧
      (w.flow.clouseau = none ∧ w.flow.gadget = none ∧ w.flow.data = none →
        ∀ i, addRefCount i w.calls = remRefCount i w.calls) := by
  have hinv0 : ∀ i, addRefCount i w0.calls = remRefCount i w0.calls + heldBy i w0.flow := by
    intro i
    simp [addRefCount, remRefCount, heldBy, hcalls, hstart.1, hstart.2.1, hstart.2.2]
  obtain ⟨w, hrun⟩ := Sys.run_returns (pre ++ suf) w0 hargs hclear
  obtain ⟨w1, hrun1⟩ := Sys.run_returns pre w0
    (Sys.respects_append_left _ pre suf w0 hargs) (Sys.respects_append_left _ pre suf w0 hclear)
  refine ⟨w1, w, hrun1, hrun, ?_, ?_⟩
  · exact Sys.run_balanced pre w0 w1 hrun1 (Sys.respects_append_left _ pre suf w0 hset) hinv0
  · intro hend i
    have h := Sys.run_balanced (pre ++ suf) w0 w hrun hset hinv0 i
    simpa [heldBy, hend.1, hend.2.1, hend.2.2] using h

/-- Witness for the amended C1: bind clouseau and gadget to inspector 1, data
to inspector 2, then clear all three; the checks pass on the zeroed flow. -/
theorem binding_calls_balanced_witness :
    Sys.respects BindOp.setsInspector
      ([BindOp.set_clouseau (some 1), BindOp.set_gadget (some 1), BindOp.set_data (some 2)] ++
        [BindOp.clear_gadget, BindOp.clear_clouseau, BindOp.clear_data]) Sys.zeroed = true ∧
    Sys.respects BindOp.clearsBound
      ([BindOp.set_clouseau (some 1), BindOp.set_gadget (some 1), BindOp.set_data (some 2)] ++
        [BindOp.clear_gadget, BindOp.clear_clouseau, BindOp.clear_data]) Sys.zeroed = true ∧
    Sys.respects BindOp.setsEmpty
      ([BindOp.set_clouseau (some 1), BindOp.set_gadget (some 1), BindOp.set_data (some 2)] ++
        [BindOp.clear_gadget, BindOp.clear_clouseau, BindOp.clear_data]) Sys.zeroed = true ∧
    ∃ w1 w,
      Sys.run [BindOp.set_clouseau (some 1), BindOp.set_gadget (some 1), BindOp.set_data (some 2)]
        Sys.zeroed = some w1 ∧
      Sys.run
        ([BindOp.set_clouseau (some 1), BindOp.set_gadget (some 1), BindOp.set_data (some 2)] ++
          [BindOp.clear_gadget, BindOp.clear_clouseau, BindOp.clear_data]) Sys.zeroed = some w ∧
      (∀ i, addRefCount i w1.calls = remRefCount i w1.calls + heldBy i w1.flow) ∧
      (w.flow.clouseau = none ∧ w.flow.gadget = none ∧ w.flow.data = none →
        ∀ i, addRefCount i w.calls = remRefCount i w.calls) :=
  ⟨by decide, by decide, by decide,
    binding_calls_balanced Sys.zeroed
      [BindOp.set_clouseau (some 1), BindOp.set_gadget (some 1), BindOp.set_data (some 2)]
      [BindOp.clear_gadget, BindOp.clear_clouseau, BindOp.clear_data]
      ⟨rfl, rfl, rfl⟩ rfl (by decide) (by decide) (by decide)⟩

/-! ## `update_session_flags`, `clear_session_flags`, `set_ignore_direction` -/

theorem testBit_of_lt_two_pow_32 {b : Nat} (hb : b < 2 ^ 32) {i : Nat} (hi : 32 ≤ i) :
    b.testBit i = false := by
  apply Nat.testBit_lt_two_pow
  exact Nat.lt_of_lt_of_le hb (Nat.pow_le_pow_right (by decide) hi)

theorem testBit_not32 (x i : Nat) (hx : x < 2 ^ 32) :
    (not32 x).testBit i = (decide (i < 32) && !x.testBit i) := by
  have e : not32 x = 2 ^ 32 - (x + 1) := by
    unfold not32
    rw [u32_of_lt hx]
    omega
  rw [e]
  exact Nat.testBit_two_pow_sub_succ hx i

theorem clear_session_flags_of_lt (f : Flow) (x : Nat) (hs : f.get_session_flags < 2 ^ 32) :
    f.clear_session_flags x = (f.get_session_flags &&& not32 x,
      { f with ssn_state :=
        { f.ssn_state with session_flags := f.get_session_flags &&& not32 x } }) := by
  have hs1 : f.ssn_state.session_flags < 2 ^ 32 := hs
  have hlt : f.ssn_state.session_flags &&& not32 x < 2 ^ 32 :=
    Nat.lt_of_le_of_lt Nat.and_le_left hs1
  simp only [Flow.clear_session_flags, Flow.get_session_flags]
  rw [u32_of_lt hlt]

theorem testBit_cleared (s x i : Nat) (hs : s < 2 ^ 32) (hx : x < 2 ^ 32) :
    (s &&& not32 x).testBit i = (s.testBit i && !x.testBit i) := by
  rw [Nat.testBit_and, testBit_not32 x i hx]
  by_cases hi : i < 32
  · simp [hi]
  · have h0 : s.testBit i = false := testBit_of_lt_two_pow_32 hs (Nat.le_of_not_lt hi)
    simp [h0]

/-- C11: on 32-bit values, and for every argument, `update_session_flags(x)`
stores exactly `x` and `clear_session_flags(x)` stores `s AND NOT x` (each bit
of `x` cleared, each bit outside `x` kept); both return the value they stored,
which `get_session_flags()` then reads back. -/
theorem update_and_clear_session_flags_store (f : Flow) (x : Nat)
    (hs : f.get_session_flags < 2 ^ 32) (hx : x < 2 ^ 32) :
    (f.update_session_flags x).1 = x ∧
    (f.update_session_flags x).2.get_session_flags = x ∧
    (f.clear_session_flags x).1 = f.get_session_flags &&& (2 ^ 32 - 1 - x) ∧
    (f.clear_session_flags x).2.get_session_flags = (f.clear_session_flags x).1 ∧
    (∀ i, (f.clear_session_flags x).1.testBit i
      = (f.get_session_flags.testBit i && !x.testBit i)) ∧
    (f.clear_session_flags x).1 &&& x = 0 ∧
    (∀ m, m &&& x = 0 →
      (f.clear_session_flags x).1 &&& m = f.get_session_flags &&& m) := by
  have hc := clear_session_flags_of_lt f x hs
  have hn : not32 x = 2 ^ 32 - 1 - x := by
    unfold not32
    rw [u32_of_lt hx]
  refine ⟨?_, ?_, ?_, ?_, ?_, ?_, ?_⟩
  · exact u32_of_lt hx
  · exact u32_of_lt hx
  · rw [hc, hn]
  · rw [hc]; rfl
  · intro i
    rw [hc]
    exact testBit_cleared _ x i hs hx
  · rw [hc]
    apply Nat.eq_of_testBit_eq
    intro i
    rw [Nat.testBit_and, testBit_cleared _ x i hs hx, Nat.zero_testBit]
    cases f.get_session_flags.testBit i <;> cases x.testBit i <;> rfl
  · intro m hm
    rw [hc]
    apply Nat.eq_of_testBit_eq
    intro i
    have hmi : (m.testBit i && x.testBit i) = false := by
      rw [← Nat.testBit_and, hm, Nat.zero_testBit]
    rw [Nat.testBit_and, testBit_cleared _ x i hs hx, Nat.testBit_and]
    revert hmi
    cases f.get_session_flags.testBit i <;> cases x.testBit i <;> cases m.testBit i <;> simp

/-- Witness for C11: flags 3 on the zeroed flow, argument 1. -/
theorem update_and_clear_session_flags_store_witness :
    (Flow.zeroed.update_session_flags 3).2.get_session_flags < 2 ^ 32 ∧ (1 : Nat) < 2 ^ 32 ∧
    ((Flow.zeroed.update_session_flags 3).2.update_session_flags 1).1 = 1 ∧
    ((Flow.zeroed.update_session_flags 3).2.clear_session_flags 1).1
      = (Flow.zeroed.update_session_flags 3).2.get_session_flags &&& (2 ^ 32 - 1 - 1) :=
  ⟨by decide, by decide,
    (update_and_clear_session_flags_store (Flow.zeroed.update_session_flags 3).2 1
      (by decide) (by decide)).1,
    (update_and_clear_session_flags_store (Flow.zeroed.update_session_flags 3).2 1
      (by decide) (by decide)).2.2.1⟩

/-- C12: `set_ignore_direction(d)` returns `d`, `get_ignore_direction()` then
returns `d`, and the write-on-change body gives the same result and the same
flow as the unconditional assignment, so no other member is modified. -/
theorem set_ignore_direction_eq_assign (d : Int) (f : Flow) :
    (f.set_ignore_direction d).1 = d ∧
    (f.set_ignore_direction d).2.get_ignore_direction = d ∧
    f.set_ignore_direction d = f.assign_ignore_direction d ∧
    (f.set_ignore_direction d).2
      = { f with ssn_state := { f.ssn_state with ignore_direction := d } } := by
  have key : f.set_ignore_direction d = f.assign_ignore_direction d := by
    unfold Flow.set_ignore_direction Flow.assign_ignore_direction
    by_cases h : f.ssn_state.ignore_direction = d
    · simp only [ne_eq, h, not_true_eq_false, if_false]
      subst h
      rfl
    · simp only [ne_eq, h, not_false_eq_true, if_true]
  refine ⟨?_, ?_, key, ?_⟩
  · rw [key]; rfl
  · rw [key]; rfl
  · rw [key]; rfl

/-! ## Independence of the named flags -/

theorem named_flags_lt : ∀ a ∈ namedSessionFlags, a < 2 ^ 32 := by
  decide

theorem named_flags_disjoint :
    ∀ a ∈ namedSessionFlags, ∀ b ∈ namedSessionFlags, a ≠ b → a &&& b = 0 := by
  decide

theorem or_and_of_disjoint (s a b : Nat) (h : a &&& b = 0) : (s ||| a) &&& b = s &&& b := by
  rw [Nat.and_distrib_right, h, Nat.or_zero]

theorem cleared_and_of_disjoint (s a b : Nat) (hs : s < 2 ^ 32) (ha : a < 2 ^ 32)
    (h : a &&& b = 0) : (s &&& not32 a) &&& b = s &&& b := by
  apply Nat.eq_of_testBit_eq
  intro i
  have hab : (a.testBit i && b.testBit i) = false := by
    rw [← Nat.testBit_and, h, Nat.zero_testBit]
  rw [Nat.testBit_and, testBit_cleared s a i hs ha, Nat.testBit_and]
  revert hab
  cases s.testBit i <;> cases a.testBit i <;> cases b.testBit i <;> simp

/-- C13: the 21 named session flags are distinct single bits of a 32-bit word
and pairwise disjoint, so on a 32-bit flag word `set_session_flags(a)` and
`clear_session_flags(a)` leave the bit of every other named flag `b` as it
was. -/
theorem named_session_flags_independent :
    namedSessionFlags.length = 21 ∧
    namedSessionFlags.Nodup ∧
    (∀ a ∈ namedSessionFlags, ∃ k, k < 32 ∧ a = 2 ^ k) ∧
    (∀ a ∈ namedSessionFlags, ∀ b ∈ namedSessionFlags, a ≠ b → a &&& b = 0) ∧
    (∀ (f : Flow) (a b : Nat), a ∈ namedSessionFlags → b ∈ namedSessionFlags → a ≠ b →
      f.get_session_flags < 2 ^ 32 →
        (f.set_session_flags a).2.get_session_flags &&& b = f.get_session_flags &&& b ∧
        (f.clear_session_flags a).2.get_session_flags &&& b = f.get_session_flags &&& b) := by
  refine ⟨rfl, by decide, by decide, named_flags_disjoint, ?_⟩
  intro f a b ha hb hab hs
  have ha32 := named_flags_lt a ha
  have hd := named_flags_disjoint a ha b hb hab
  constructor
  · rw [set_session_flags_of_lt f a hs ha32]
    exact or_and_of_disjoint _ a b hd
  · rw [clear_session_flags_of_lt f a hs]
    exact cleared_and_of_disjoint _ a b hs ha32 hd

/-- Witness for C13: on flags 0x30000, setting or clearing `SSNFLAG_PROXIED`
leaves the `SSNFLAG_DROP_CLIENT` bit as it was. -/
theorem named_session_flags_independent_witness :
    SSNFLAG_PROXIED ∈ namedSessionFlags ∧ SSNFLAG_DROP_CLIENT ∈ namedSessionFlags ∧
    SSNFLAG_PROXIED ≠ SSNFLAG_DROP_CLIENT ∧ Flow.zeroed.block.get_session_flags < 2 ^ 32 ∧
    (Flow.zeroed.block.set_session_flags SSNFLAG_PROXIED).2.get_session_flags
        &&& SSNFLAG_DROP_CLIENT
      = Flow.zeroed.block.get_session_flags &&& SSNFLAG_DROP_CLIENT ∧
    (Flow.zeroed.block.clear_session_flags SSNFLAG_PROXIED).2.get_session_flags
        &&& SSNFLAG_DROP_CLIENT
      = Flow.zeroed.block.get_session_flags &&& SSNFLAG_DROP_CLIENT :=
  ⟨by decide, by decide, by decide, by decide,
    named_session_flags_independent.2.2.2.2 Flow.zeroed.block SSNFLAG_PROXIED
      SSNFLAG_DROP_CLIENT (by decide) (by decide) (by decide) (by decide)⟩

/-! ## `was_blocked` -/

theorem or_eq_zero_parts (x y : Nat) (h : x ||| y = 0) : x = 0 ∧ y = 0 := by
  constructor
  · by_contra hx
    obtain ⟨i, hi⟩ := Nat.ne_zero_implies_bit_true hx
    have hb : (x ||| y).testBit i = true := by rw [Nat.testBit_or, hi]; rfl
    rw [h, Nat.zero_testBit] at hb
    exact Bool.noConfusion hb
  · by_contra hy
    obtain ⟨i, hi⟩ := Nat.ne_zero_implies_bit_true hy
    have hb : (x ||| y).testBit i = true := by rw [Nat.testBit_or, hi, Bool.or_true]
    rw [h, Nat.zero_testBit] at hb
    exact Bool.noConfusion hb

theorem and_or_ne_zero_iff (s a b : Nat) :
    s &&& (a ||| b) ≠ 0 ↔ (s &&& a ≠ 0 ∨ s &&& b ≠ 0) := by
  rw [Nat.and_or_distrib_left]
  constructor
  · intro h
    by_contra hn
    push_neg at hn
    rw [hn.1, hn.2] at h
    exact h rfl
  · intro h hz
    have h1 : s &&& a = 0 := (or_eq_zero_parts _ _ hz).1
    have h2 : s &&& b = 0 := (or_eq_zero_parts _ _ hz).2
    cases h with
    | inl h => exact h h1
    | inr h => exact h h2

/-- C19: `was_blocked()` is true exactly when at least one of the two
drop-direction flags is set; one `set_session_flags` call with a single drop
flag makes it true although `block()` was never called, whereas
`two_way_traffic()` stays false with one seen-flag alone. -/
theorem was_blocked_iff_some_drop_flag (f : Flow) :
    (f.was_blocked = true ↔
      (f.get_session_flags &&& SSNFLAG_DROP_CLIENT ≠ 0 ∨
        f.get_session_flags &&& SSNFLAG_DROP_SERVER ≠ 0)) ∧
    (f.set_session_flags SSNFLAG_DROP_CLIENT).2.was_blocked = true ∧
    (f.set_session_flags SSNFLAG_DROP_SERVER).2.was_blocked = true ∧
    (Flow.zeroed.set_session_flags SSNFLAG_DROP_CLIENT).2.get_session_flags
      = SSNFLAG_DROP_CLIENT ∧
    (Flow.zeroed.set_session_flags SSNFLAG_SEEN_CLIENT).2.two_way_traffic = false := by
  have hiff : ∀ g : Flow, g.was_blocked = true ↔
      (g.get_session_flags &&& SSNFLAG_DROP_CLIENT ≠ 0 ∨
        g.get_session_flags &&& SSNFLAG_DROP_SERVER ≠ 0) := by
    intro g
    unfold Flow.was_blocked Flow.get_session_flags SSNFLAG_BLOCK
    rw [decide_eq_true_iff]
    exact and_or_ne_zero_iff _ _ _
  have hc : SSNFLAG_DROP_CLIENT = 2 ^ 16 := by decide
  have hv : SSNFLAG_DROP_SERVER = 2 ^ 17 := by decide
  refine ⟨hiff f, ?_, ?_, by decide, by decide⟩
  · rw [hiff]
    left
    rw [Flow.get_session_flags, hc, and_two_pow_ne_zero_iff, ← hc, testBit_set_session_flags, hc,
      Nat.testBit_two_pow_self]
    simp
  · rw [hiff]
    right
    rw [Flow.get_session_flags, hv, and_two_pow_ne_zero_iff, ← hv, testBit_set_session_flags, hv,
      Nat.testBit_two_pow_self]
    simp

/-! ## Bucket times -/

theorem aligned_time_facts (t b : Int) (hb : 0 < b) (ht : 0 ≤ t) :
    b ∣ t - t.tmod b ∧ t - t.tmod b ≤ t ∧ t - (t - t.tmod b) < b ∧
    ∀ m, b ∣ m → m ≤ t → m ≤ t - t.tmod b := by
  rw [Int.tmod_eq_emod ht (Int.le_of_lt hb)]
  have h0 : 0 ≤ t % b := Int.emod_nonneg t (Int.ne_of_gt hb)
  have h1 : t % b < b := Int.emod_lt_of_pos t hb
  have h2 : t % b + b * (t / b) = t := Int.emod_add_ediv t b
  have hq : t - t % b = b * (t / b) := by omega
  refine ⟨⟨t / b, hq⟩, by omega, by omega, ?_⟩
  intro m hm hle
  obtain ⟨k, hk⟩ := hm
  rw [hq]
  by_contra hgt
  have hlt : b * (t / b) < b * k := by rw [← hk]; omega
  have hkq : t / b < k := lt_of_mul_lt_mul_left hlt (Int.le_of_lt hb)
  have hstep : b * (t / b + 1) ≤ b * k := Int.mul_le_mul_of_nonneg_left hkq (Int.le_of_lt hb)
  rw [Int.mul_add, Int.mul_one, ← hk] at hstep
  omega

/-- C20: with `bucketInterval > 0`, the time that `get_time` computes from a
non-negative clock value, and the bucket time that `update_appid_statistics`
computes from a non-negative `firstPktsecond`, is the largest multiple of
`bucketInterval` not above the input (a multiple, at most the input, less than
one interval below it); after `start_stats_period` on that time it is strictly
below `bucketEnd = bucketStart + bucketInterval`. -/
theorem bucket_time_is_largest_multiple (clock : Int) (asd : AppIdSession) (st : AppIdStats)
    (hb : 0 < st.bucketInterval) (hclock : 0 ≤ clock) (hfirst : 0 ≤ asd.firstPktsecond) :
    (∃ now, get_time clock st = some now ∧
      st.bucketInterval ∣ now ∧ now ≤ clock ∧ clock - now < st.bucketInterval ∧
      (∀ m, st.bucketInterval ∣ m → m ≤ clock → m ≤ now) ∧
      (start_stats_period now st).bucketStart = now ∧
      (start_stats_period now st).bucketEnd
        = (start_stats_period now st).bucketStart + st.bucketInterval ∧
      now < (start_stats_period now st).bucketEnd) ∧
    (∃ bucketTime, session_bucket_time asd st = some bucketTime ∧
      st.bucketInterval ∣ bucketTime ∧ bucketTime ≤ asd.firstPktsecond ∧
      asd.firstPktsecond - bucketTime < st.bucketInterval ∧
      (∀ m, st.bucketInterval ∣ m → m ≤ asd.firstPktsecond → m ≤ bucketTime)) := by
  have hne : st.bucketInterval ≠ 0 := Int.ne_of_gt hb
  constructor
  · obtain ⟨h1, h2, h3, h4⟩ := aligned_time_facts clock st.bucketInterval hb hclock
    refine ⟨clock - clock.tmod st.bucketInterval, ?_, h1, h2, h3, h4, rfl, rfl, ?_⟩
    · simp [get_time, hne]
    · simp only [start_stats_period]
      omega
  · obtain ⟨h1, h2, h3, h4⟩ :=
      aligned_time_facts asd.firstPktsecond st.bucketInterval hb hfirst
    refine ⟨asd.firstPktsecond - asd.firstPktsecond.tmod st.bucketInterval, ?_, h1, h2, h3, h4⟩
    simp [session_bucket_time, hne]

/-- Witness for C20: interval 300, clock 1000 and first packet second 1234 give
the aligned times 900 and 1200. -/
theorem bucket_time_is_largest_multiple_witness :
    (0 : Int) < ({ AppIdStats.initial with bucketInterval := 300 } : AppIdStats).bucketInterval ∧
    (0 : Int) ≤ 1000 ∧ (0 : Int) ≤ 1234 ∧
    get_time 1000 { AppIdStats.initial with bucketInterval := 300 } = some 900 ∧
    (∃ now, get_time 1000 { AppIdStats.initial with bucketInterval := 300 } = some now ∧
      now < (start_stats_period now
        { AppIdStats.initial with bucketInterval := 300 }).bucketEnd) :=
  ⟨by decide, by decide, by decide, by decide,
    match (bucket_time_is_largest_multiple 1000
      { firstPktsecond := 1234, initiatorBytes := 0, responderBytes := 0, web_app_id := 0,
        service_app_id := 0, client_app_id := 0 }
      { AppIdStats.initial with bucketInterval := 300 } (by decide) (by decide) (by decide)).1 with
    | ⟨now, h, _, _, _, _, _, _, hlt⟩ => ⟨now, h, hlt⟩⟩

/-! ## `get_stats_bucket` -/

theorem time_to_u32_of_lt (n : Nat) (hn : n < 2 ^ 32) : time_to_u32 (n : Int) = n := by
  unfold time_to_u32
  have h : ((n : Int) % 2 ^ 32) = (n : Int) := by
    apply Int.emod_eq_of_lt (Int.ofNat_nonneg n)
    exact_mod_cast hn
  rw [h]
  exact Int.toNat_ofNat n

theorem new_stats_bucket_of_lt (n : Nat) (hn : n < 2 ^ 32) :
    new_stats_bucket (n : Int) =
      { startTime := n, appsTree := [], txByteCnt := 0, rxByteCnt := 0, appRecordCnt := 0 } := by
  unfold new_stats_bucket
  rw [time_to_u32_of_lt n hn]
  rfl

theorem get_stats_bucket_scan_cons (n : Nat) (b : StatsBucket) (rest : List StatsBucket) :
    get_stats_bucket_scan (n : Int) (b :: rest) =
      if n = b.startTime then (0, b :: rest)
      else if n < b.startTime then (0, new_stats_bucket (n : Int) :: b :: rest)
      else ((get_stats_bucket_scan (n : Int) rest).1 + 1,
        b :: (get_stats_bucket_scan (n : Int) rest).2) := by
  simp only [get_stats_bucket_scan, Nat.cast_inj, Nat.cast_lt]

theorem get_stats_bucket_scan_mem (n : Nat) (l : List StatsBucket) :
    ∀ x ∈ (get_stats_bucket_scan (n : Int) l).2, x = new_stats_bucket (n : Int) ∨ x ∈ l := by
  induction l with
  | nil =>
    intro x hx
    simp only [get_stats_bucket_scan, List.mem_singleton] at hx
    exact Or.inl hx
  | cons b rest ih =>
    intro x hx
    rw [get_stats_bucket_scan_cons] at hx
    by_cases h1 : n = b.startTime
    · rw [if_pos h1] at hx
      exact Or.inr hx
    · rw [if_neg h1] at hx
      by_cases h2 : n < b.startTime
      · rw [if_pos h2] at hx
        rcases List.mem_cons.mp hx with h | h
        · exact Or.inl h
        · exact Or.inr h
      · rw [if_neg h2] at hx
        rcases List.mem_cons.mp hx with h | h
        · exact Or.inr (h ▸ List.mem_cons_self b rest)
        · rcases ih x h with h3 | h3
          · exact Or.inl h3
          · exact Or.inr (List.mem_cons_of_mem b h3)

theorem get_stats_bucket_scan_ascending (n : Nat) (hn : n < 2 ^ 32) (l : List StatsBucket)
    (hl : startTimesAscending l) :
    startTimesAscending (get_stats_bucket_scan (n : Int) l).2 := by
  unfold startTimesAscending at hl ⊢
  induction l with
  | nil => simp [get_stats_bucket_scan]
  | cons b rest ih =>
    rw [get_stats_bucket_scan_cons]
    have hb := (List.pairwise_cons.mp hl).1
    have hrest := (List.pairwise_cons.mp hl).2
    by_cases h1 : n = b.startTime
    · rw [if_pos h1]
      exact hl
    · rw [if_neg h1]
      by_cases h2 : n < b.startTime
      · rw [if_pos h2]
        apply List.pairwise_cons.mpr
        refine ⟨?_, hl⟩
        intro x hx
        rw [new_stats_bucket_of_lt n hn]
        rcases List.mem_cons.mp hx with h | h
        · rw [h]; exact h2
        · exact Nat.lt_trans h2 (hb x h)
      · rw [if_neg h2]
        apply List.pairwise_cons.mpr
        refine ⟨?_, ih hrest⟩
        intro x hx
        rcases get_stats_bucket_scan_mem n rest x hx with h | h
        · rw [h, new_stats_bucket_of_lt n hn]
          show b.startTime < n
          omega
        · exact hb x h

/-- C14: when the start times of the current buckets are strictly ascending,
they are strictly ascending again after `get_stats_bucket(t)`, for every
requested `t` with `0 <= t < 2^32`; the call returns a bucket. -/
theorem get_stats_bucket_keeps_ascending (t : Int) (currBuckets : Option (List StatsBucket))
    (h0 : 0 ≤ t) (h32 : t < 2 ^ 32) (hasc : startTimesAscending (bucketsOf currBuckets)) :
    (get_stats_bucket t currBuckets).1.isSome = true ∧
    startTimesAscending (bucketsOf (get_stats_bucket t currBuckets).2) := by
  obtain ⟨n, rfl⟩ := Int.eq_ofNat_of_zero_le h0
  have hn : n < 2 ^ 32 := by exact_mod_cast h32
  cases currBuckets with
  | none =>
    exact ⟨rfl, get_stats_bucket_scan_ascending n hn [] List.Pairwise.nil⟩
  | some l =>
    exact ⟨rfl, get_stats_bucket_scan_ascending n hn l hasc⟩

/-- Witness for C14: requesting 600 on buckets with start times 300 and 900. -/
theorem get_stats_bucket_keeps_ascending_witness :
    (0 : Int) ≤ 600 ∧ (600 : Int) < 2 ^ 32 ∧
    startTimesAscending (bucketsOf (some [new_stats_bucket 300, new_stats_bucket 900])) ∧
    (get_stats_bucket 600 (some [new_stats_bucket 300, new_stats_bucket 900])).2
      = some [new_stats_bucket 300, new_stats_bucket 600, new_stats_bucket 900] ∧
    startTimesAscending
      (bucketsOf (get_stats_bucket 600 (some [new_stats_bucket 300, new_stats_bucket 900])).2) :=
  ⟨by decide, by decide,
    List.pairwise_cons.mpr ⟨by decide, List.pairwise_cons.mpr ⟨by decide, List.Pairwise.nil⟩⟩,
    by decide,
    (get_stats_bucket_keeps_ascending 600 (some [new_stats_bucket 300, new_stats_bucket 900])
      (by decide) (by decide)
      (List.pairwise_cons.mpr
        ⟨by decide, List.pairwise_cons.mpr ⟨by decide, List.Pairwise.nil⟩⟩)).2⟩

theorem get_stats_bucket_scan_found (n : Nat) (l : List StatsBucket)
    (hl : startTimesAscending l) (b0 : StatsBucket) (hmem : b0 ∈ l) (hb0 : b0.startTime = n) :
    (get_stats_bucket_scan (n : Int) l).2 = l ∧
      l[(get_stats_bucket_scan (n : Int) l).1]? = some b0 := by
  unfold startTimesAscending at hl
  induction l with
  | nil => exact absurd hmem (List.not_mem_nil b0)
  | cons b rest ih =>
    rw [get_stats_bucket_scan_cons]
    have hb := (List.pairwise_cons.mp hl).1
    have hrest := (List.pairwise_cons.mp hl).2
    by_cases h1 : n = b.startTime
    · rw [if_pos h1]
      refine ⟨rfl, ?_⟩
      rcases List.mem_cons.mp hmem with h | h
      · rw [h]; simp
      · have := hb b0 h
        omega
    · rw [if_neg h1]
      rcases List.mem_cons.mp hmem with h | h
      · rw [h] at hb0
        exact absurd hb0.symm h1
      · have hlt := hb b0 h
        have h2 : ¬ n < b.startTime := by omega
        rw [if_neg h2]
        obtain ⟨e1, e2⟩ := ih hrest h
        refine ⟨by rw [e1], ?_⟩
        simpa using e2

theorem get_stats_bucket_scan_fresh (n : Nat) (l : List StatsBucket)
    (hnone : ∀ b0 ∈ l, b0.startTime ≠ n) :
    (get_stats_bucket_scan (n : Int) l).2 =
      l.take (get_stats_bucket_scan (n : Int) l).1 ++
        new_stats_bucket (n : Int) :: l.drop (get_stats_bucket_scan (n : Int) l).1 := by
  induction l with
  | nil => rfl
  | cons b rest ih =>
    rw [get_stats_bucket_scan_cons]
    have h1 : ¬ n = b.startTime := fun h => hnone b (List.mem_cons_self b rest) h.symm
    rw [if_neg h1]
    by_cases h2 : n < b.startTime
    · rw [if_pos h2]
      rfl
    · rw [if_neg h2]
      have ih1 := ih (fun b0 hb0 => hnone b0 (List.mem_cons_of_mem b hb0))
      simp only [List.take_succ_cons, List.drop_succ_cons, List.cons_append]
      rw [← ih1]

theorem get_stats_bucket_scan_index (n : Nat) (l : List StatsBucket)
    (hnone : ∀ b0 ∈ l, b0.startTime ≠ n) :
    (get_stats_bucket_scan (n : Int) l).2[(get_stats_bucket_scan (n : Int) l).1]?
      = some (new_stats_bucket (n : Int)) := by
  induction l with
  | nil => rfl
  | cons b rest ih =>
    rw [get_stats_bucket_scan_cons]
    have h1 : ¬ n = b.startTime := fun h => hnone b (List.mem_cons_self b rest) h.symm
    rw [if_neg h1]
    by_cases h2 : n < b.startTime
    · rw [if_pos h2]
      rfl
    · rw [if_neg h2]
      have ih1 := ih (fun b0 hb0 => hnone b0 (List.mem_cons_of_mem b hb0))
      simpa using ih1

/-- C15: on strictly ascending buckets and for `0 <= t < 2^32`,
`get_stats_bucket(t)` returns a bucket whose start time is `t`. If a bucket
with start time `t` existed, it is that bucket and the list is unchanged;
otherwise the returned bucket is new (start time `t`, no record, zero totals,
empty tree) and the list is the old one with just this bucket inserted at the
returned position. -/
theorem get_stats_bucket_finds_or_inserts (t : Int) (currBuckets : Option (List StatsBucket))
    (h0 : 0 ≤ t) (h32 : t < 2 ^ 32) (hasc : startTimesAscending (bucketsOf currBuckets)) :
    ∃ idx l1 b, get_stats_bucket t currBuckets = (some idx, some l1) ∧
      l1[idx]? = some b ∧ (b.startTime : Int) = t ∧
      (∀ b0 ∈ bucketsOf currBuckets, (b0.startTime : Int) = t →
        l1 = bucketsOf currBuckets ∧ b = b0) ∧
      ((∀ b0 ∈ bucketsOf currBuckets, (b0.startTime : Int) ≠ t) →
        b = { startTime := t.toNat, appsTree := [], txByteCnt := 0, rxByteCnt := 0,
              appRecordCnt := 0 } ∧
        l1 = (bucketsOf currBuckets).take idx ++ b :: (bucketsOf currBuckets).drop idx) := by
  obtain ⟨n, rfl⟩ := Int.eq_ofNat_of_zero_le h0
  have hn : n < 2 ^ 32 := by exact_mod_cast h32
  have hget : get_stats_bucket (n : Int) currBuckets =
      (some (get_stats_bucket_scan (n : Int) (bucketsOf currBuckets)).1,
        some (get_stats_bucket_scan (n : Int) (bucketsOf currBuckets)).2) := by
    cases currBuckets <;> rfl
  by_cases hex : ∃ b0 ∈ bucketsOf currBuckets, b0.startTime = n
  · obtain ⟨b0, hmem, hb0⟩ := hex
    obtain ⟨e1, e2⟩ := get_stats_bucket_scan_found n _ hasc b0 hmem hb0
    refine ⟨_, _, b0, hget, ?_, by exact_mod_cast hb0, ?_, ?_⟩
    · rw [e1]; exact e2
    · intro b1 hb1 ht1
      have ht1n : b1.startTime = n := by exact_mod_cast ht1
      obtain ⟨_, e3⟩ := get_stats_bucket_scan_found n _ hasc b1 hb1 ht1n
      rw [e2] at e3
      exact ⟨e1, Option.some.inj e3⟩
    · intro hno
      exact absurd (by exact_mod_cast hb0) (hno b0 hmem)
  · have hnone : ∀ b0 ∈ bucketsOf currBuckets, b0.startTime ≠ n :=
      fun b0 hb0 he => hex ⟨b0, hb0, he⟩
    refine ⟨_, _, new_stats_bucket (n : Int), hget,
      get_stats_bucket_scan_index n _ hnone, ?_, ?_, ?_⟩
    · rw [new_stats_bucket_of_lt n hn]
    · intro b0 hb0 ht0
      exact absurd (by exact_mod_cast ht0) (hnone b0 hb0)
    · intro _
      refine ⟨?_, get_stats_bucket_scan_fresh n _ hnone⟩
      rw [new_stats_bucket_of_lt n hn]
      rfl

/-- Witness for C15: requesting 600 on buckets with start times 300 and 900
returns position 1 of the list with a new bucket between the two. -/
theorem get_stats_bucket_finds_or_inserts_witness :
    (0 : Int) ≤ 600 ∧ (600 : Int) < 2 ^ 32 ∧
    startTimesAscending (bucketsOf (some [new_stats_bucket 300, new_stats_bucket 900])) ∧
    get_stats_bucket 600 (some [new_stats_bucket 300, new_stats_bucket 900])
      = (some 1, some [new_stats_bucket 300, new_stats_bucket 600, new_stats_bucket 900]) ∧
    ∃ idx l1 b, get_stats_bucket 600 (some [new_stats_bucket 300, new_stats_bucket 900])
        = (some idx, some l1) ∧ l1[idx]? = some b ∧ (b.startTime : Int) = 600 :=
  ⟨by decide, by decide,
    List.pairwise_cons.mpr ⟨by decide, List.pairwise_cons.mpr ⟨by decide, List.Pairwise.nil⟩⟩,
    by decide,
    match get_stats_bucket_finds_or_inserts 600
      (some [new_stats_bucket 300, new_stats_bucket 900]) (by decide) (by decide)
      (List.pairwise_cons.mpr
        ⟨by decide, List.pairwise_cons.mpr ⟨by decide, List.Pairwise.nil⟩⟩) with
    | ⟨idx, l1, b, h1, h2, h3, _, _⟩ => ⟨idx, l1, b, h1, h2, h3⟩⟩

/-! ## Records of one bucket -/

theorem fwAvlLookup_storeRecord_same (key : Nat) (r : AppIdStatRecord) (tree : FwAvlTree)
    (h : (fwAvlLookup key tree).isSome = true) :
    fwAvlLookup key (storeRecord key r tree) = some r := by
  induction tree with
  | nil => simp [fwAvlLookup] at h
  | cons node rest ih =>
    obtain ⟨k, r0⟩ := node
    by_cases hk : k = key
    · simp [storeRecord, fwAvlLookup, hk]
    · simp only [fwAvlLookup, if_neg hk] at h
      simp only [storeRecord, if_neg hk, fwAvlLookup]
      exact ih h

theorem fwAvlLookup_storeRecord_other (key other : Nat) (r : AppIdStatRecord) (tree : FwAvlTree)
    (h : other ≠ key) :
    fwAvlLookup other (storeRecord key r tree) = fwAvlLookup other tree := by
  induction tree with
  | nil => rfl
  | cons node rest ih =>
    obtain ⟨k, r0⟩ := node
    by_cases hk : k = key
    · have hko : ¬ k = other := fun e => h (e.symm.trans hk)
      simp only [storeRecord, if_pos hk, fwAvlLookup, if_neg hko]
    · simp only [storeRecord, if_neg hk, fwAvlLookup]
      rw [ih]

theorem fwAvlLookup_place_same (key : Nat) (r : AppIdStatRecord) (tree : FwAvlTree)
    (h : fwAvlLookup key tree = none) :
    fwAvlLookup key (fwAvlPlace key r tree) = some r := by
  induction tree with
  | nil => simp [fwAvlPlace, fwAvlLookup]
  | cons node rest ih =>
    obtain ⟨k, r0⟩ := node
    by_cases hk : k = key
    · simp [fwAvlLookup, hk] at h
    · simp only [fwAvlLookup, if_neg hk] at h
      by_cases hlt : key < k
      · simp [fwAvlPlace, hlt, fwAvlLookup]
      · simp only [fwAvlPlace, if_neg hlt, fwAvlLookup, if_neg hk]
        exact ih h

theorem fwAvlLookup_place_other (key other : Nat) (r : AppIdStatRecord) (tree : FwAvlTree)
    (h : other ≠ key) :
    fwAvlLookup other (fwAvlPlace key r tree) = fwAvlLookup other tree := by
  induction tree with
  | nil => simp [fwAvlPlace, fwAvlLookup, h.symm]
  | cons node rest ih =>
    obtain ⟨k, r0⟩ := node
    by_cases hlt : key < k
    · simp [fwAvlPlace, hlt, fwAvlLookup, h.symm]
    · simp only [fwAvlPlace, if_neg hlt, fwAvlLookup]
      rw [ih]

/-- The block for one id, with the insert succeeding, leaves a record for the
id whose counters are the earlier ones plus the session's bytes. -/
theorem update_app_record_same (app_id : Nat) (asd : AppIdSession) (bucket : StatsBucket) :
    (fwAvlLookup app_id (update_app_record app_id asd true bucket).appsTree).isSome = true ∧
    recordBytes app_id (update_app_record app_id asd true bucket).appsTree =
      (u32 ((recordBytes app_id bucket.appsTree).1 + asd.initiatorBytes),
        u32 ((recordBytes app_id bucket.appsTree).2 + asd.responderBytes)) := by
  cases hl : fwAvlLookup app_id bucket.appsTree with
  | some record =>
    have hs : (fwAvlLookup app_id bucket.appsTree).isSome = true := by rw [hl]; rfl
    have e : (update_app_record app_id asd true bucket).appsTree
        = storeRecord app_id (add_session_bytes asd record) bucket.appsTree := by
      simp only [update_app_record, hl]
    rw [e]
    simp only [recordBytes, fwAvlLookup_storeRecord_same app_id _ _ hs, hl]
    exact ⟨rfl, rfl⟩
  | none =>
    have hp := fwAvlLookup_place_same app_id AppIdStatRecord.zeroed bucket.appsTree hl
    have hs : (fwAvlLookup app_id
        (fwAvlPlace app_id AppIdStatRecord.zeroed bucket.appsTree)).isSome = true := by
      rw [hp]; rfl
    have e : (update_app_record app_id asd true bucket).appsTree
        = storeRecord app_id
            (add_session_bytes asd { AppIdStatRecord.zeroed with app_id := app_id })
            (fwAvlPlace app_id AppIdStatRecord.zeroed bucket.appsTree) := by
      simp [update_app_record, hl, fwAvlInsert]
    rw [e]
    simp only [recordBytes, fwAvlLookup_storeRecord_same app_id _ _ hs, hl]
    exact ⟨rfl, rfl⟩

/-- The block for one id leaves the record of every other id as it was. -/
theorem update_app_record_other (app_id other : Nat) (asd : AppIdSession) (mem : Bool)
    (bucket : StatsBucket) (h : other ≠ app_id) :
    fwAvlLookup other (update_app_record app_id asd mem bucket).appsTree
      = fwAvlLookup other bucket.appsTree := by
  cases hl : fwAvlLookup app_id bucket.appsTree with
  | some record =>
    simp only [update_app_record, hl]
    exact fwAvlLookup_storeRecord_other app_id other _ _ h
  | none =>
    cases mem with
    | false => simp [update_app_record, hl, fwAvlInsert]
    | true =>
      have e : (update_app_record app_id asd true bucket).appsTree
          = storeRecord app_id
              (add_session_bytes asd { AppIdStatRecord.zeroed with app_id := app_id })
              (fwAvlPlace app_id AppIdStatRecord.zeroed bucket.appsTree) := by
        simp [update_app_record, hl, fwAvlInsert]
      rw [e, fwAvlLookup_storeRecord_other app_id other _ _ h,
        fwAvlLookup_place_other app_id other _ _ h]

theorem recordBytes_congr (app_id : Nat) (t1 t2 : FwAvlTree)
    (h : fwAvlLookup app_id t1 = fwAvlLookup app_id t2) :
    recordBytes app_id t1 = recordBytes app_id t2 := by
  unfold recordBytes
  rw [h]

theorem guarded_block_other (G : Prop) [Decidable G] (x other : Nat) (asd : AppIdSession)
    (mem : Bool) (bucket : StatsBucket) (h : G → other ≠ x) :
    fwAvlLookup other (if G then update_app_record x asd mem bucket else bucket).appsTree
      = fwAvlLookup other bucket.appsTree := by
  by_cases hG : G
  · rw [if_pos hG]
    exact update_app_record_other x other asd mem bucket (h hG)
  · rw [if_neg hG]

theorem guarded_block_same (G : Prop) [Decidable G] (x : Nat) (asd : AppIdSession)
    (bucket : StatsBucket) (hG : G) :
    (fwAvlLookup x (if G then update_app_record x asd true bucket else bucket).appsTree).isSome
      = true ∧
    recordBytes x (if G then update_app_record x asd true bucket else bucket).appsTree =
      (u32 ((recordBytes x bucket.appsTree).1 + asd.initiatorBytes),
        u32 ((recordBytes x bucket.appsTree).2 + asd.responderBytes)) := by
  rw [if_pos hG]
  exact update_app_record_same x asd bucket

/-- Lines 133-234 on one bucket, inserts succeeding: the record of each non-zero
id among the session's three ids gets the session's bytes added once, the
record of every other id is as before. -/
theorem update_bucket_records (asd : AppIdSession) (bucket : StatsBucket) (app_id : Nat) :
    (sessionCounts asd app_id →
      (fwAvlLookup app_id (update_bucket asd (fun _ => true) bucket).appsTree).isSome = true ∧
      recordBytes app_id (update_bucket asd (fun _ => true) bucket).appsTree =
        (u32 ((recordBytes app_id bucket.appsTree).1 + asd.initiatorBytes),
          u32 ((recordBytes app_id bucket.appsTree).2 + asd.responderBytes))) ∧
    (¬ sessionCounts asd app_id →
      fwAvlLookup app_id (update_bucket asd (fun _ => true) bucket).appsTree
        = fwAvlLookup app_id bucket.appsTree) := by
  unfold update_bucket sessionCounts APP_ID_NONE
  generalize hb0 : ({ bucket with
      txByteCnt := u64 (bucket.txByteCnt + asd.initiatorBytes)
      rxByteCnt := u64 (bucket.rxByteCnt + asd.responderBytes) } : StatsBucket) = b0
  have ht0 : b0.appsTree = bucket.appsTree := by rw [← hb0]
  rw [← ht0]
  simp only []
  generalize hb1 : (if asd.web_app_id > 0 then
      update_app_record asd.web_app_id asd true b0 else b0) = b1
  generalize hb2 : (if asd.service_app_id ≠ 0 ∧ asd.service_app_id ≠ asd.web_app_id then
      update_app_record asd.service_app_id asd true b1 else b1) = b2
  constructor
  · rintro ⟨hne, hmem⟩
    by_cases hw : app_id = asd.web_app_id
    · -- counted by the payload block
      have hG : asd.web_app_id > 0 := by omega
      have h1 := guarded_block_same (asd.web_app_id > 0) asd.web_app_id asd b0 hG
      rw [hb1, ← hw] at h1
      have h2 : fwAvlLookup app_id b2.appsTree = fwAvlLookup app_id b1.appsTree := by
        rw [← hb2]
        exact guarded_block_other _ _ _ _ _ _ (fun g => by omega)
      have h3 := guarded_block_other
        (asd.client_app_id > 0 ∧ asd.client_app_id ≠ asd.service_app_id
          ∧ asd.client_app_id ≠ asd.web_app_id) asd.client_app_id app_id asd true b2
        (fun g => by omega)
      rw [h3, h2, recordBytes_congr app_id _ _ h3, recordBytes_congr app_id _ _ h2]
      exact h1
    · have h1 : fwAvlLookup app_id b1.appsTree = fwAvlLookup app_id b0.appsTree := by
        rw [← hb1]
        exact guarded_block_other _ _ _ _ _ _ (fun _ => hw)
      by_cases hs : app_id = asd.service_app_id
      · -- counted by the service block
        have hG : asd.service_app_id ≠ 0 ∧ asd.service_app_id ≠ asd.web_app_id := by
          constructor <;> omega
        have h2 := guarded_block_same _ asd.service_app_id asd b1 hG
        rw [hb2, ← hs] at h2
        have h3 := guarded_block_other
          (asd.client_app_id > 0 ∧ asd.client_app_id ≠ asd.service_app_id
            ∧ asd.client_app_id ≠ asd.web_app_id) asd.client_app_id app_id asd true b2
          (fun g => by omega)
        rw [h3, recordBytes_congr app_id _ _ h3, ← recordBytes_congr app_id _ _ h1]
        exact h2
      · -- counted by the client block
        have hc : app_id = asd.client_app_id := by
          rcases hmem with h | h | h
          · exact absurd h hw
          · exact absurd h hs
          · exact h
        subst hc
        have h2 : fwAvlLookup asd.client_app_id b2.appsTree
            = fwAvlLookup asd.client_app_id b1.appsTree := by
          rw [← hb2]
          exact guarded_block_other _ _ _ _ _ _ (fun _ => hs)
        have hG : asd.client_app_id > 0 ∧ asd.client_app_id ≠ asd.service_app_id
            ∧ asd.client_app_id ≠ asd.web_app_id := by
          refine ⟨?_, ?_, ?_⟩ <;> omega
        have h3 := guarded_block_same _ asd.client_app_id asd b2 hG
        rw [← recordBytes_congr _ _ _ h1, ← recordBytes_congr _ _ _ h2]
        exact h3
  · intro hnot
    have hout : ∀ x, x ≠ 0 →
        (x = asd.web_app_id ∨ x = asd.service_app_id ∨ x = asd.client_app_id) →
        app_id ≠ x := by
      intro x hx hin he
      exact hnot ⟨he ▸ hx, he ▸ hin⟩
    have h1 : fwAvlLookup app_id b1.appsTree = fwAvlLookup app_id b0.appsTree := by
      rw [← hb1]
      exact guarded_block_other _ _ _ _ _ _
        (fun g => hout _ (by omega) (Or.inl rfl))
    have h2 : fwAvlLookup app_id b2.appsTree = fwAvlLookup app_id b1.appsTree := by
      rw [← hb2]
      exact guarded_block_other _ _ _ _ _ _
        (fun g => hout _ g.1 (Or.inr (Or.inl rfl)))
    have h3 := guarded_block_other
      (asd.client_app_id > 0 ∧ asd.client_app_id ≠ asd.service_app_id
        ∧ asd.client_app_id ≠ asd.web_app_id) asd.client_app_id app_id asd true b2
      (fun g => hout _ (by omega) (Or.inr (Or.inr rfl)))
    rw [h3, h2, h1]

/-! ## `update_appid_statistics` -/

theorem get_stats_bucket_scan_index_lt (t : Int) (l : List StatsBucket) :
    (get_stats_bucket_scan t l).1 < (get_stats_bucket_scan t l).2.length := by
  induction l with
  | nil => simp [get_stats_bucket_scan]
  | cons b rest ih =>
    simp only [get_stats_bucket_scan]
    split
    · simp
    · split
      · simp
      · simpa using ih

theorem get_stats_bucket_returns (t : Int) (currBuckets : Option (List StatsBucket)) :
    ∃ idx l1 b0, get_stats_bucket t currBuckets = (some idx, some l1) ∧ l1[idx]? = some b0 := by
  have hget : get_stats_bucket t currBuckets =
      (some (get_stats_bucket_scan t (bucketsOf currBuckets)).1,
        some (get_stats_bucket_scan t (bucketsOf currBuckets)).2) := by
    cases currBuckets <;> rfl
  have hlt := get_stats_bucket_scan_index_lt t (bucketsOf currBuckets)
  exact ⟨_, _, _, hget, List.getElem?_eq_getElem hlt⟩

/-- What a returning period check leaves: the state as it was, or, at a period
end whose dump stayed inside its buffers, the state after the swap, the dump
and the start of the next period. -/
theorem roll_stats_period_some (env : AppInfoEnv) (now : Int) (st sr : AppIdStats)
    (h : roll_stats_period env now st = some sr) :
    sr = st ∨
      (now ≥ st.bucketEnd ∧ dumpsInside (dump_statistics env (end_stats_period st)).2 = true ∧
        sr = start_stats_period now (dump_statistics env (end_stats_period st)).1) := by
  unfold roll_stats_period at h
  by_cases hend : now ≥ st.bucketEnd
  · rw [if_pos hend] at h
    by_cases hin : dumpsInside (dump_statistics env (end_stats_period st)).2 = true
    · simp only [hin, if_true] at h
      exact Or.inr ⟨hend, hin, (Option.some.inj h).symm⟩
    · simp only [hin] at h
      exact Option.noConfusion h
  · rw [if_neg hend] at h
    exact Or.inl (Option.some.inj h).symm

theorem roll_stats_period_before_end (env : AppInfoEnv) (now : Int) (st : AppIdStats)
    (h : now < st.bucketEnd) : roll_stats_period env now st = some st := by
  unfold roll_stats_period
  rw [if_neg (by omega)]

theorem dump_statistics_interval (env : AppInfoEnv) (st : AppIdStats) :
    (dump_statistics env st).1.bucketInterval = st.bucketInterval ∧
    (dump_statistics env st).1.enableAppStats = st.enableAppStats := by
  unfold dump_statistics
  split <;> exact ⟨rfl, rfl⟩

theorem roll_stats_period_interval (env : AppInfoEnv) (now : Int) (st sr : AppIdStats)
    (h : roll_stats_period env now st = some sr) : sr.bucketInterval = st.bucketInterval := by
  rcases roll_stats_period_some env now st sr h with e | ⟨_, _, e⟩
  · rw [e]
  · rw [e]
    exact (dump_statistics_interval env (end_stats_period st)).1

theorem roll_stats_period_enabled (env : AppInfoEnv) (now : Int) (st sr : AppIdStats)
    (h : roll_stats_period env now st = some sr) : sr.enableAppStats = st.enableAppStats := by
  rcases roll_stats_period_some env now st sr h with e | ⟨_, _, e⟩
  · rw [e]
  · rw [e]
    exact (dump_statistics_interval env (end_stats_period st)).2

theorem get_time_some_interval (clock now : Int) (st : AppIdStats)
    (h : get_time clock st = some now) : st.bucketInterval ≠ 0 := by
  intro h0
  simp [get_time, h0] at h

/-- With statistics enabled, when the period check of the call returns the
state `sr`, the call returns, and in the session's bucket (the one
`get_stats_bucket` yields in `sr` for the session's bucket time) the record of
each non-zero id among the payload, service and client ids has the session's
bytes added once, modulo 2^32; the record of every other id and every other
bucket of the list are unchanged. -/
theorem update_appid_statistics_records (env : AppInfoEnv) (clock : Int) (asd : AppIdSession)
    (st sr : AppIdStats) (now : Int) (hen : st.enableAppStats = true)
    (hnow : get_time clock st = some now) (hroll : roll_stats_period env now st = some sr) :
    ∃ bucketTime idx l1 b0 st1 l2 b1,
      session_bucket_time asd sr = some bucketTime ∧
      get_stats_bucket bucketTime sr.currBuckets = (some idx, some l1) ∧
      l1[idx]? = some b0 ∧
      update_appid_statistics env clock asd (fun _ => true) st = some st1 ∧
      st1.currBuckets = some l2 ∧ l2[idx]? = some b1 ∧
      (∀ j, j ≠ idx → l2[j]? = l1[j]?) ∧
      ∀ app_id,
        (sessionCounts asd app_id →
          (fwAvlLookup app_id b1.appsTree).isSome = true ∧
          recordBytes app_id b1.appsTree =
            (u32 ((recordBytes app_id b0.appsTree).1 + asd.initiatorBytes),
              u32 ((recordBytes app_id b0.appsTree).2 + asd.responderBytes))) ∧
        (¬ sessionCounts asd app_id →
          fwAvlLookup app_id b1.appsTree = fwAvlLookup app_id b0.appsTree) := by
  have hint : st.bucketInterval ≠ 0 := get_time_some_interval clock now st hnow
  have hint1 : sr.bucketInterval ≠ 0 := by
    rw [roll_stats_period_interval env now st sr hroll]; exact hint
  have hbt : session_bucket_time asd sr =
      some (asd.firstPktsecond - asd.firstPktsecond.tmod sr.bucketInterval) := by
    simp [session_bucket_time, hint1]
  generalize hb : asd.firstPktsecond
    - asd.firstPktsecond.tmod sr.bucketInterval = bucketTime at hbt
  obtain ⟨idx, l1, b0, hget, hidx⟩ := get_stats_bucket_returns bucketTime sr.currBuckets
  have hrun : update_appid_statistics env clock asd (fun _ => true) st =
      some { sr with
        currBuckets := some (l1.modify (update_bucket asd (fun _ => true)) idx) } := by
    simp [update_appid_statistics, hen, hnow, hroll, hbt, hget]
  refine ⟨bucketTime, idx, l1, b0, _, _, update_bucket asd (fun _ => true) b0,
    hbt, hget, hidx, hrun, rfl, ?_, ?_, ?_⟩
  · rw [List.getElem?_modify_eq, hidx]
    rfl
  · intro j hj
    exact List.getElem?_modify_ne _ l1 (Ne.symm hj)
  · intro app_id
    exact update_bucket_records asd b0 app_id

/-- When the dump of the period check leaves a buffer, the call has no
successor state. -/
theorem update_appid_statistics_overrun (env : AppInfoEnv) (clock : Int) (asd : AppIdSession)
    (mem : Nat → Bool) (st : AppIdStats) (now : Int) (hen : st.enableAppStats = true)
    (hnow : get_time clock st = some now) (hroll : roll_stats_period env now st = none) :
    update_appid_statistics env clock asd mem st = none := by
  simp [update_appid_statistics, hen, hnow, hroll]

/-- In a reachable state with statistics enabled the interval is not zero:
`init_appid_statistics` divides by it before it returns. -/
theorem reachable_interval_ne_zero (env : AppInfoEnv) (st : AppIdStats)
    (h : StatsReachable env st) : st.enableAppStats = true → st.bucketInterval ≠ 0 := by
  induction h with
  | init enabled period clock st h =>
    unfold init_appid_statistics at h
    cases enabled with
    | false =>
      simp only [Bool.false_eq_true, if_false] at h
      intro hen
      rw [← Option.some.inj h] at hen
      exact Bool.noConfusion hen
    | true =>
      simp only [if_true, get_time] at h
      intro _
      by_cases hp : period = 0
      · simp [hp] at h
      · simp only [if_neg hp] at h
        rw [← Option.some.inj h]
        exact hp
  | update clock asd mem st st1 _ _ h ih =>
    unfold update_appid_statistics at h
    by_cases hen : st.enableAppStats = false
    · rw [if_pos hen] at h
      exact (Option.some.inj h) ▸ ih
    · rw [if_neg hen] at h
      have hen1 : st.enableAppStats = true := by simpa using hen
      cases hnow : get_time clock st with
      | none => simp [hnow] at h
      | some now =>
        simp only [hnow] at h
        cases hroll : roll_stats_period env now st with
        | none => simp [hroll] at h
        | some sr =>
          simp only [hroll] at h
          have hint := roll_stats_period_interval env now st sr hroll
          cases hbt : session_bucket_time asd sr with
          | none => simp [hbt] at h
          | some bucketTime =>
            simp only [hbt] at h
            obtain ⟨idx, l1, b0, hget, _⟩ := get_stats_bucket_returns bucketTime sr.currBuckets
            rw [hget] at h
            intro _
            rw [← Option.some.inj h]
            show sr.bucketInterval ≠ 0
            rw [hint]
            exact ih hen1
  | flush clock st st1 _ h ih =>
    unfold flush_appid_statistics at h
    by_cases hen : st.enableAppStats = false
    · rw [if_pos hen] at h
      exact (Option.some.inj h) ▸ ih
    · rw [if_neg hen] at h
      have hen1 : st.enableAppStats = true := by simpa using hen
      cases hnow : get_time clock st with
      | none => simp [hnow] at h
      | some now =>
        simp only [hnow] at h
        intro _
        rw [roll_stats_period_interval env now st st1 h]
        exact ih hen1

/-- In a reachable state with statistics enabled, a call whose clock value has
not reached `bucketEnd` returns and adds the session's bytes once to the
record of each non-zero id among the three ids in the session's bucket. -/
theorem update_appid_statistics_within_period (env : AppInfoEnv) (clock : Int)
    (asd : AppIdSession) (st : AppIdStats) (now : Int) (hen : st.enableAppStats = true)
    (hnow : get_time clock st = some now) (hbefore : now < st.bucketEnd) :
    ∃ bucketTime idx l1 b0 st1 l2 b1,
      session_bucket_time asd st = some bucketTime ∧
      get_stats_bucket bucketTime st.currBuckets = (some idx, some l1) ∧
      l1[idx]? = some b0 ∧
      update_appid_statistics env clock asd (fun _ => true) st = some st1 ∧
      st1.currBuckets = some l2 ∧ l2[idx]? = some b1 ∧
      (∀ j, j ≠ idx → l2[j]? = l1[j]?) ∧
      ∀ app_id,
        (sessionCounts asd app_id →
          (fwAvlLookup app_id b1.appsTree).isSome = true ∧
          recordBytes app_id b1.appsTree =
            (u32 ((recordBytes app_id b0.appsTree).1 + asd.initiatorBytes),
              u32 ((recordBytes app_id b0.appsTree).2 + asd.responderBytes))) ∧
        (¬ sessionCounts asd app_id →
          fwAvlLookup app_id b1.appsTree = fwAvlLookup app_id b0.appsTree) :=
  update_appid_statistics_records env clock asd st st now hen hnow
    (roll_stats_period_before_end env now st hbefore)

/-- Within a period the sample call adds once: for the sample session (payload
and service id both 5, client id 7) at clock 1000 the call leaves one bucket,
started at 900, with one record for 5 and one for 7, each holding the
session's 10 and 20 bytes once. -/
theorem update_appid_statistics_sample :
    (update_appid_statistics AppInfoEnv.sample 1000 AppIdSession.sample (fun _ => true)
        AppIdStats.sample).map (fun st => st.currBuckets)
      = some (some [{ startTime := 900,
                      appsTree := [(5, { app_id := 5, initiatorBytes := 10, responderBytes := 20 }),
                        (7, { app_id := 7, initiatorBytes := 10, responderBytes := 20 })],
                      txByteCnt := 10, rxByteCnt := 20, appRecordCnt := 2 }]) := by
  decide

theorem snprintf_length_lt (size : Nat) (text : List Char) (h : 0 < size) :
    (snprintf size text).length < size := by
  unfold snprintf
  rw [List.length_take]
  omega

/-- Off the plain-entry path (the id is a cooked client id, or the table has no
entry for it) the selected name is shorter than the name field, provided the
field has room for the fixed names. -/
theorem stat_app_name_bounded_off_plain_entry (env : AppInfoEnv) (record : AppIdStatRecord)
    (hmax : 9 < env.MAX_EVENT_APPNAME_LEN)
    (hpath : u32_to_AppId record.app_id < 2000000000 →
      env.get_app_info_entry (u32_to_AppId record.app_id) = none) :
    (stat_app_name env record).length < env.MAX_EVENT_APPNAME_LEN := by
  have hpos : 0 < env.MAX_EVENT_APPNAME_LEN := by omega
  unfold stat_app_name
  by_cases hc : u32_to_AppId record.app_id ≥ 2000000000
  · simp only [hc, decide_True, if_true]
    split
    · exact snprintf_length_lt _ _ hpos
    · split
      · exact hmax
      · split
        · exact Nat.lt_trans (by decide) hmax
        · exact snprintf_length_lt _ _ hpos
  · have hn := hpath (by omega)
    simp only [hc, decide_False, if_false, hn, Bool.false_eq_true]
    split
    · exact hmax
    · split
      · exact Nat.lt_trans (by decide) hmax
      · exact snprintf_length_lt _ _ hpos

/-- C18 fails on the plain-entry path: with a name field of 64 characters and a
table entry for application 1 whose name has 80 characters, the name selected
for the record of application 1 is that entry's name, 80 characters long, not
shorter than the field. -/
theorem plain_entry_name_exceeds_field :
    stat_app_name AppInfoEnv.sample { app_id := 1, initiatorBytes := 10, responderBytes := 20 }
      = List.replicate 80 'a' ∧
    (stat_app_name AppInfoEnv.sample
      { app_id := 1, initiatorBytes := 10, responderBytes := 20 }).length = 80 ∧
    ¬ ((stat_app_name AppInfoEnv.sample
        { app_id := 1, initiatorBytes := 10, responderBytes := 20 }).length
      < AppInfoEnv.sample.MAX_EVENT_APPNAME_LEN) := by
  decide

/-- C17 fails in its last part: after `init_appid_statistics` and one
`update_appid_statistics` for a session with payload id 1, the bucket has
`appRecordCnt = 1` and one record;
when the period ends, `dump_statistics` allocates 1 * 72 + 16 = 88 bytes,
writes the header, and then copies the 80-character name of application 1 to
bytes 16..95, past the end of the buffer. -/
theorem dump_statistics_writes_past_buffer :
    init_appid_statistics true 300 1000 AppIdStats.initial = some AppIdStats.sample ∧
    (update_appid_statistics AppInfoEnv.sample 1000 AppIdSession.sampleOne (fun _ => true)
        AppIdStats.sample).map
      (fun st => (st.currBuckets,
        (dump_statistics AppInfoEnv.sample (end_stats_period st)).2))
      = some (some [{ startTime := 900,
                      appsTree := [(1, { app_id := 1, initiatorBytes := 10,
                                         responderBytes := 20 })],
                      txByteCnt := 10, rxByteCnt := 20, appRecordCnt := 1 }],
              [some (88, [(0, 4), (4, 4), (8, 4), (12, 4), (16, 80), (80, 4), (84, 4)])]) ∧
    writesInside (88, [(0, 4), (4, 4), (8, 4), (12, 4), (16, 80), (80, 4), (84, 4)]) = false :=
  ⟨by decide, by rfl, by decide⟩

/-! ## Record counts -/

theorem treeKeys_storeRecord (key : Nat) (r : AppIdStatRecord) (tree : FwAvlTree) :
    treeKeys (storeRecord key r tree) = treeKeys tree := by
  induction tree with
  | nil => rfl
  | cons node rest ih =>
    obtain ⟨k, r0⟩ := node
    by_cases hk : k = key
    · simp [storeRecord, treeKeys, hk]
    · simp only [storeRecord, if_neg hk, treeKeys, List.map_cons] at ih ⊢
      rw [ih]

theorem length_storeRecord (key : Nat) (r : AppIdStatRecord) (tree : FwAvlTree) :
    (storeRecord key r tree).length = tree.length := by
  have h := congrArg List.length (treeKeys_storeRecord key r tree)
  simpa [treeKeys] using h

theorem fwAvlLookup_eq_none_iff (key : Nat) (tree : FwAvlTree) :
    fwAvlLookup key tree = none ↔ key ∉ treeKeys tree := by
  induction tree with
  | nil => simp [fwAvlLookup, treeKeys]
  | cons node rest ih =>
    obtain ⟨k, r0⟩ := node
    by_cases hk : k = key
    · simp [fwAvlLookup, treeKeys, hk]
    · have hne : ¬ key = k := fun e => hk e.symm
      simp only [fwAvlLookup, if_neg hk, treeKeys, List.map_cons, List.mem_cons, not_or] at ih ⊢
      rw [ih]
      exact ⟨fun h => ⟨hne, h⟩, fun h => h.2⟩

theorem treeKeys_place_perm (key : Nat) (r : AppIdStatRecord) (tree : FwAvlTree) :
    List.Perm (treeKeys (fwAvlPlace key r tree)) (key :: treeKeys tree) := by
  induction tree with
  | nil => exact List.Perm.refl _
  | cons node rest ih =>
    obtain ⟨k, r0⟩ := node
    by_cases hlt : key < k
    · simp only [fwAvlPlace, if_pos hlt]
      exact List.Perm.refl _
    · simp only [fwAvlPlace, if_neg hlt, treeKeys, List.map_cons] at ih ⊢
      exact (List.Perm.cons k ih).trans (List.Perm.swap key k _)

theorem nodup_bounded_length (l : List Nat) (N : Nat) (hnd : l.Nodup)
    (hb : ∀ k ∈ l, 0 < k ∧ k < N) : l.length + 1 ≤ N ∨ l = [] := by
  by_cases hl : l = []
  · exact Or.inr hl
  · left
    have hsub : l.toFinset ⊆ Finset.Ico 1 N := by
      intro k hk
      have := hb k (List.mem_toFinset.mp hk)
      exact Finset.mem_Ico.mpr ⟨this.1, this.2⟩
    have hcard := Finset.card_le_card hsub
    rw [List.toFinset_card_of_nodup hnd, Nat.card_Ico] at hcard
    obtain ⟨k, hk⟩ := List.exists_mem_of_ne_nil l hl
    have := hb k hk
    omega

theorem update_app_record_counted (app_id : Nat) (asd : AppIdSession) (mem : Bool)
    (bucket : StatsBucket) (hpos : 0 < app_id) (h32 : app_id < 2 ^ 32)
    (hb : bucketCounted bucket) : bucketCounted (update_app_record app_id asd mem bucket) := by
  obtain ⟨hcnt, hnd, hkeys⟩ := hb
  cases hl : fwAvlLookup app_id bucket.appsTree with
  | some record =>
    simp only [update_app_record, hl]
    exact ⟨by rw [length_storeRecord]; exact hcnt, by rw [treeKeys_storeRecord]; exact hnd,
      by rw [treeKeys_storeRecord]; exact hkeys⟩
  | none =>
    cases mem with
    | false =>
      simp only [update_app_record, hl, fwAvlInsert]
      exact ⟨hcnt, hnd, hkeys⟩
    | true =>
      have hnot : app_id ∉ treeKeys bucket.appsTree := (fwAvlLookup_eq_none_iff _ _).mp hl
      have hperm := treeKeys_place_perm app_id AppIdStatRecord.zeroed bucket.appsTree
      have hnd1 : (treeKeys (fwAvlPlace app_id AppIdStatRecord.zeroed bucket.appsTree)).Nodup :=
        hperm.nodup_iff.mpr (List.nodup_cons.mpr ⟨hnot, hnd⟩)
      have hkeys1 : ∀ k ∈ treeKeys (fwAvlPlace app_id AppIdStatRecord.zeroed bucket.appsTree),
          0 < k ∧ k < 2 ^ 32 := by
        intro k hk
        rcases List.mem_cons.mp (hperm.mem_iff.mp hk) with h | h
        · rw [h]; exact ⟨hpos, h32⟩
        · exact hkeys k h
      have hlen : (fwAvlPlace app_id AppIdStatRecord.zeroed bucket.appsTree).length
          = bucket.appsTree.length + 1 := by
        have := hperm.length_eq
        simpa [treeKeys] using this
      have hroom : bucket.appsTree.length + 1 < 2 ^ 32 := by
        have hne : treeKeys (fwAvlPlace app_id AppIdStatRecord.zeroed bucket.appsTree) ≠ [] := by
          intro h0
          have := congrArg List.length h0
          simp [treeKeys, hlen] at this
        rcases nodup_bounded_length _ (2 ^ 32) hnd1 hkeys1 with h | h
        · simp only [treeKeys, List.length_map, hlen] at h
          omega
        · exact absurd h hne
      have e : update_app_record app_id asd true bucket =
          { bucket with
            appsTree := storeRecord app_id
              (add_session_bytes asd { AppIdStatRecord.zeroed with app_id := app_id })
              (fwAvlPlace app_id AppIdStatRecord.zeroed bucket.appsTree)
            appRecordCnt := u32 (bucket.appRecordCnt + 1) } := by
        simp [update_app_record, hl, fwAvlInsert]
      rw [e]
      refine ⟨?_, by rw [treeKeys_storeRecord]; exact hnd1,
        by rw [treeKeys_storeRecord]; exact hkeys1⟩
      show u32 (bucket.appRecordCnt + 1) = _
      rw [length_storeRecord, hlen, hcnt]
      exact u32_of_lt hroom

theorem update_bucket_counted (asd : AppIdSession) (mem : Nat → Bool) (bucket : StatsBucket)
    (hids : asd.idsAre32Bit) (hb : bucketCounted bucket) :
    bucketCounted (update_bucket asd mem bucket) := by
  obtain ⟨hw, hs, hc⟩ := hids
  unfold update_bucket APP_ID_NONE
  have hb0 : bucketCounted ({ bucket with
      txByteCnt := u64 (bucket.txByteCnt + asd.initiatorBytes)
      rxByteCnt := u64 (bucket.rxByteCnt + asd.responderBytes) } : StatsBucket) := hb
  generalize ({ bucket with
      txByteCnt := u64 (bucket.txByteCnt + asd.initiatorBytes)
      rxByteCnt := u64 (bucket.rxByteCnt + asd.responderBytes) } : StatsBucket) = b0 at hb0
  simp only []
  have hb1 : bucketCounted (if asd.web_app_id > 0 then
      update_app_record asd.web_app_id asd (mem asd.web_app_id) b0 else b0) := by
    split
    · exact update_app_record_counted _ _ _ _ (by omega) hw hb0
    · exact hb0
  generalize (if asd.web_app_id > 0 then
      update_app_record asd.web_app_id asd (mem asd.web_app_id) b0 else b0) = b1 at hb1
  have hb2 : bucketCounted (if asd.service_app_id ≠ 0 ∧ asd.service_app_id ≠ asd.web_app_id then
      update_app_record asd.service_app_id asd (mem asd.service_app_id) b1 else b1) := by
    split
    · rename_i hg
      exact update_app_record_counted _ _ _ _ (by omega) hs hb1
    · exact hb1
  generalize (if asd.service_app_id ≠ 0 ∧ asd.service_app_id ≠ asd.web_app_id then
      update_app_record asd.service_app_id asd (mem asd.service_app_id) b1 else b1) = b2 at hb2
  split
  · rename_i hg
    exact update_app_record_counted _ _ _ _ (by omega) hc hb2
  · exact hb2

theorem new_stats_bucket_counted (t : Int) : bucketCounted (new_stats_bucket t) := by
  refine ⟨rfl, List.nodup_nil, ?_⟩
  intro k hk
  exact absurd hk (List.not_mem_nil k)

theorem get_stats_bucket_scan_members (t : Int) (l : List StatsBucket) :
    ∀ x ∈ (get_stats_bucket_scan t l).2, x = new_stats_bucket t ∨ x ∈ l := by
  induction l with
  | nil =>
    intro x hx
    simp only [get_stats_bucket_scan, List.mem_singleton] at hx
    exact Or.inl hx
  | cons b rest ih =>
    intro x hx
    simp only [get_stats_bucket_scan] at hx
    split at hx
    · exact Or.inr hx
    · split at hx
      · rcases List.mem_cons.mp hx with h | h
        · exact Or.inl h
        · exact Or.inr h
      · rcases List.mem_cons.mp hx with h | h
        · exact Or.inr (h ▸ List.mem_cons_self b rest)
        · rcases ih x h with h3 | h3
          · exact Or.inl h3
          · exact Or.inr (List.mem_cons_of_mem b h3)

theorem mem_modify (f : StatsBucket → StatsBucket) (idx : Nat) (l : List StatsBucket) :
    ∀ x ∈ l.modify f idx, x ∈ l ∨ ∃ b0 ∈ l, x = f b0 := by
  induction l generalizing idx with
  | nil =>
    intro x hx
    simp at hx
  | cons b rest ih =>
    intro x hx
    cases idx with
    | zero =>
      rw [List.modify_zero_cons] at hx
      rcases List.mem_cons.mp hx with h | h
      · exact Or.inr ⟨b, List.mem_cons_self b rest, h⟩
      · exact Or.inl (List.mem_cons_of_mem b h)
    | succ n =>
      rw [List.modify_succ_cons] at hx
      rcases List.mem_cons.mp hx with h | h
      · exact Or.inl (h ▸ List.mem_cons_self b rest)
      · rcases ih n x h with h3 | ⟨b0, hb0, h3⟩
        · exact Or.inl (List.mem_cons_of_mem b h3)
        · exact Or.inr ⟨b0, List.mem_cons_of_mem b hb0, h3⟩

theorem roll_stats_period_counted (env : AppInfoEnv) (now : Int) (st sr : AppIdStats)
    (hroll : roll_stats_period env now st = some sr) (h : statsCounted st) :
    statsCounted sr := by
  rcases roll_stats_period_some env now st sr hroll with e | ⟨_, _, e⟩
  · rw [e]; exact h
  · rw [e]
    intro b hb
    cases hc : st.currBuckets with
    | none =>
      simp only [start_stats_period, dump_statistics, end_stats_period, hc, bucketsOf] at hb
      rcases hb with hb | hb
      · exact h b (Or.inr hb)
      · exact absurd hb (List.not_mem_nil b)
    | some l =>
      simp only [start_stats_period, dump_statistics, end_stats_period, hc, bucketsOf] at hb
      rcases hb with hb | hb
      · exact h b (Or.inr hb)
      · exact absurd hb (List.not_mem_nil b)

theorem get_stats_bucket_members (t : Int) (currBuckets : Option (List StatsBucket)) :
    ∀ x ∈ bucketsOf (get_stats_bucket t currBuckets).2,
      x = new_stats_bucket t ∨ x ∈ bucketsOf currBuckets := by
  cases currBuckets with
  | none => exact get_stats_bucket_scan_members t []
  | some l => exact get_stats_bucket_scan_members t l

theorem update_appid_statistics_counted (env : AppInfoEnv) (clock : Int) (asd : AppIdSession)
    (mem : Nat → Bool) (st st1 : AppIdStats) (hids : asd.idsAre32Bit)
    (hrun : update_appid_statistics env clock asd mem st = some st1) (h : statsCounted st) :
    statsCounted st1 := by
  unfold update_appid_statistics at hrun
  by_cases hen : st.enableAppStats = false
  · rw [if_pos hen] at hrun
    exact (Option.some.inj hrun) ▸ h
  · rw [if_neg hen] at hrun
    cases hnow : get_time clock st with
    | none => simp [hnow] at hrun
    | some now =>
      simp only [hnow] at hrun
      cases hr : roll_stats_period env now st with
      | none => simp [hr] at hrun
      | some sr =>
        simp only [hr] at hrun
        have hroll := roll_stats_period_counted env now st sr hr h
        cases hbt : session_bucket_time asd sr with
        | none => simp [hbt] at hrun
        | some bucketTime =>
          simp only [hbt] at hrun
          obtain ⟨idx, l1, b0, hget, _⟩ := get_stats_bucket_returns bucketTime sr.currBuckets
          have hmem := get_stats_bucket_members bucketTime sr.currBuckets
          rw [hget] at hrun hmem
          simp only [Option.map_some'] at hrun
          have e := (Option.some.inj hrun).symm
          subst e
          intro b hb
          rcases hb with hb | hb
          · simp only [bucketsOf] at hb hmem
            have hold : ∀ x ∈ l1, bucketCounted x := by
              intro x hx
              rcases hmem x hx with h1 | h1
              · rw [h1]; exact new_stats_bucket_counted bucketTime
              · exact hroll x (Or.inl h1)
            rcases mem_modify _ idx l1 b hb with h1 | ⟨b1, hb1, h1⟩
            · exact hold b h1
            · rw [h1]
              exact update_bucket_counted asd mem b1 hids (hold b1 hb1)
          · exact hroll b (Or.inr hb)

theorem flush_appid_statistics_counted (env : AppInfoEnv) (clock : Int) (st st1 : AppIdStats)
    (hrun : flush_appid_statistics env clock st = some st1) (h : statsCounted st) :
    statsCounted st1 := by
  unfold flush_appid_statistics at hrun
  by_cases hen : st.enableAppStats = false
  · rw [if_pos hen] at hrun
    exact (Option.some.inj hrun) ▸ h
  · rw [if_neg hen] at hrun
    cases hnow : get_time clock st with
    | none => simp [hnow] at hrun
    | some now =>
      simp only [hnow] at hrun
      exact roll_stats_period_counted env now st st1 hrun h

theorem init_appid_statistics_counted (enabled : Bool) (period clock : Int) (st : AppIdStats)
    (hrun : init_appid_statistics enabled period clock AppIdStats.initial = some st) :
    statsCounted st := by
  have hcur : st.currBuckets = none ∧ st.logBuckets = none := by
    unfold init_appid_statistics at hrun
    cases enabled with
    | false =>
      simp only [Bool.false_eq_true, if_false] at hrun
      exact (Option.some.inj hrun) ▸ ⟨rfl, rfl⟩
    | true =>
      simp only [if_true] at hrun
      split at hrun
      · exact Option.noConfusion hrun
      · exact (Option.some.inj hrun) ▸ ⟨rfl, rfl⟩
  intro b hb
  rw [hcur.1, hcur.2] at hb
  rcases hb with hb | hb <;> exact absurd hb (List.not_mem_nil b)

/-- In every reachable state, each bucket of the current and of the log list
has `appRecordCnt` equal to the number of records of its tree. -/
theorem reachable_buckets_counted (env : AppInfoEnv) (st : AppIdStats)
    (h : StatsReachable env st) : statsCounted st := by
  induction h with
  | init enabled period clock st h => exact init_appid_statistics_counted enabled period clock st h
  | update clock asd mem st st1 _ hids h ih =>
    exact update_appid_statistics_counted env clock asd mem st st1 hids h ih
  | flush clock st st1 _ h ih => exact flush_appid_statistics_counted env clock st st1 h ih

theorem dump_records_inside (env : AppInfoEnv) (h4 : env.MAX_EVENT_APPNAME_LEN % 4 = 0)
    (size : Nat) (tree : FwAvlTree) :
    ∀ off, off + tree.length * outputRecordSize env ≤ size →
      (∀ node ∈ tree, (stat_app_name env node.2).length < env.MAX_EVENT_APPNAME_LEN) →
      ∀ w ∈ dump_records env off tree, w.1 + w.2 ≤ size := by
  have hstep : 4 * (outputRecordSize env / 4) = outputRecordSize env := by
    unfold outputRecordSize
    omega
  induction tree with
  | nil =>
    intro off _ _ w hw
    simp [dump_records] at hw
  | cons node rest ih =>
    intro off hfit hnames w hw
    obtain ⟨k, record⟩ := node
    have hname := hnames (k, record) (List.mem_cons_self _ _)
    have hlen : (((k, record) :: rest).length) * outputRecordSize env
        = rest.length * outputRecordSize env + outputRecordSize env := by
      rw [List.length_cons, Nat.succ_mul]
    rw [hlen] at hfit
    have hR : outputRecordSize env = env.MAX_EVENT_APPNAME_LEN + 4 + 4 := rfl
    simp only [dump_records, List.mem_cons] at hw
    rcases hw with h | h | h | h
    · rw [h]
      simp only at hname ⊢
      omega
    · rw [h]
      simp only
      omega
    · rw [h]
      simp only
      omega
    · rw [hstep] at h
      exact ih (off + outputRecordSize env) (by omega)
        (fun n hn => hnames n (List.mem_cons_of_mem _ hn)) w h

/-- When the selected names are all shorter than the name field, a counted
bucket is dumped into a buffer of `appRecordCnt` records plus the header and
every write stays inside it. -/
theorem dump_bucket_inside_of_short_names (env : AppInfoEnv) (bucket : StatsBucket)
    (hcnt : bucket.appRecordCnt = bucket.appsTree.length) (hne : bucket.appRecordCnt ≠ 0)
    (h4 : env.MAX_EVENT_APPNAME_LEN % 4 = 0)
    (hsize : bucket.appRecordCnt * outputRecordSize env + 16 < 2 ^ 64)
    (hnames : ∀ node ∈ bucket.appsTree,
      (stat_app_name env node.2).length < env.MAX_EVENT_APPNAME_LEN) :
    ∃ d, dump_bucket env bucket = some d ∧
      d.1 = bucket.appRecordCnt * outputRecordSize env + 16 ∧ writesInside d = true := by
  have hu : u64 (bucket.appRecordCnt * outputRecordSize env + 4 * 4)
      = bucket.appRecordCnt * outputRecordSize env + 16 := Nat.mod_eq_of_lt hsize
  have hd : dump_bucket env bucket = some
      (u64 (bucket.appRecordCnt * outputRecordSize env + 4 * 4),
        [(0, 4), (4, 4), (8, 4), (12, 4)] ++ dump_records env (4 * 4) bucket.appsTree) := by
    simp only [dump_bucket, if_pos hne]
  refine ⟨_, hd, hu, ?_⟩
  unfold writesInside
  rw [List.all_eq_true]
  intro w hw
  rw [decide_eq_true_eq]
  simp only [hu] at hw ⊢
  rcases List.mem_append.mp hw with h | h
  · simp only [List.mem_cons, List.mem_singleton, List.not_mem_nil, or_false] at h
    rcases h with h | h | h | h <;> (rw [h]; simp only; omega)
  · exact dump_records_inside env h4 _ bucket.appsTree 16 (by rw [hcnt]; omega) hnames w h

end Snort
